import Mathlib

/-!
Verification of the core data model of `postprocess4validation`
(`core/point_data.py`, `core/data_set.py`, `core/plane.py`,
`core/plane_set.py`, `quantitative/computations.py`).

Python `dict`s are modelled as insertion-ordered association lists with
unique keys; `dict.setdefault` keeps the stored value, plain subscript
assignment overwrites in place (or appends a new key at the end).
Python `float` coordinates, times and field values are idealised as `ℚ`:
the code only stores them and compares them with exact `==`/hashing,
which `ℚ` equality models faithfully (no NaN/Inf arise in the modelled
claims).  Exceptions are modelled with `Except`/`Option`.
-/

namespace P4V

/-- First-match lookup in an association list (Python `d[k]` / `d.get(k)`). -/
def alookup {K V : Type} [DecidableEq K] : List (K × V) → K → Option V
  | [], _ => none
  | (k, v) :: rest, k' => if k = k' then some v else alookup rest k'

/-- Python `d[k] = v`: overwrite the first entry with key `k` in place,
or append `(k, v)` at the end when `k` is absent. -/
def aset {K V : Type} [DecidableEq K] : List (K × V) → K → V → List (K × V)
  | [], k', v' => [(k', v')]
  | (k, v) :: rest, k', v' =>
    if k = k' then (k, v') :: rest else (k, v) :: aset rest k' v'

/-- Python `d.setdefault(k, v)` (effect on the dict only): append `(k, v)`
when `k` is absent, keep the stored entry otherwise. -/
def asetdefault {K V : Type} [DecidableEq K] (l : List (K × V)) (k : K) (v : V) :
    List (K × V) :=
  if (alookup l k).isSome then l else l ++ [(k, v)]

/-- Apply `f` to the value stored at key `k` (mutation of the value object
held in a Python dict); identity when `k` is absent. -/
def amodify {K V : Type} [DecidableEq K] : List (K × V) → K → (V → V) → List (K × V)
  | [], _, _ => []
  | (k, v) :: rest, k', f =>
    if k = k' then (k, f v) :: rest else (k, v) :: amodify rest k' f

@[simp] theorem alookup_nil {K V : Type} [DecidableEq K] (k : K) :
    alookup ([] : List (K × V)) k = none := rfl

@[simp] theorem alookup_cons {K V : Type} [DecidableEq K] (k k' : K) (v : V) (l : List (K × V)) :
    alookup ((k, v) :: l) k' = if k = k' then some v else alookup l k' := rfl

theorem alookup_append {K V : Type} [DecidableEq K] (l₁ l₂ : List (K × V)) (k : K) :
    alookup (l₁ ++ l₂) k = ((alookup l₁ k).orElse fun _ => alookup l₂ k) := by
  induction l₁ with
  | nil => simp [alookup]
  | cons hd tl ih =>
    obtain ⟨k₀, v₀⟩ := hd
    by_cases h : k₀ = k <;> simp [alookup, h, ih, Option.orElse]

/-- `asetdefault` never changes an existing binding. -/
theorem alookup_asetdefault_present {K V : Type} [DecidableEq K]
    (l : List (K × V)) (k k' : K) (v : V) (h : (alookup l k).isSome) :
    alookup (asetdefault l k v) k' = alookup l k' := by
  unfold asetdefault
  rw [if_pos h]

/-- `asetdefault` on an absent key makes the new binding visible. -/
theorem alookup_asetdefault_absent {K V : Type} [DecidableEq K]
    (l : List (K × V)) (k : K) (v : V) (h : alookup l k = none) :
    alookup (asetdefault l k v) k = some v := by
  unfold asetdefault
  rw [h]
  simp [alookup_append, h, alookup, Option.orElse]

/-- Lookup after an overwriting write at the same key. -/
theorem alookup_aset_self {K V : Type} [DecidableEq K]
    (l : List (K × V)) (k : K) (v : V) :
    alookup (aset l k v) k = some v := by
  induction l with
  | nil => simp [aset, alookup]
  | cons hd tl ih =>
    obtain ⟨k₀, v₀⟩ := hd
    by_cases h : k₀ = k <;> simp [aset, alookup, h, ih]

/-- Lookup after an overwriting write at a different key. -/
theorem alookup_aset_other {K V : Type} [DecidableEq K]
    (l : List (K × V)) (k k' : K) (v : V) (h : k ≠ k') :
    alookup (aset l k v) k' = alookup l k' := by
  induction l with
  | nil => simp [aset, alookup, h]
  | cons hd tl ih =>
    obtain ⟨k₀, v₀⟩ := hd
    by_cases h₀ : k₀ = k
    · subst h₀
      simp [aset, alookup, h]
    · simp [aset, alookup, h₀, ih]

theorem alookup_amodify_self {K V : Type} [DecidableEq K]
    (l : List (K × V)) (k : K) (f : V → V) :
    alookup (amodify l k f) k = (alookup l k).map f := by
  induction l with
  | nil => simp [amodify, alookup]
  | cons hd tl ih =>
    obtain ⟨k₀, v₀⟩ := hd
    by_cases h : k₀ = k <;> simp [amodify, alookup, h, ih]

theorem alookup_amodify_other {K V : Type} [DecidableEq K]
    (l : List (K × V)) (k k' : K) (f : V → V) (h : k ≠ k') :
    alookup (amodify l k f) k' = alookup l k' := by
  induction l with
  | nil => simp [amodify]
  | cons hd tl ih =>
    obtain ⟨k₀, v₀⟩ := hd
    by_cases h₀ : k₀ = k
    · subst h₀
      simp [amodify, alookup, h]
    · simp [amodify, alookup, h₀, ih]

@[simp] theorem except_ok_bind {ε α β : Type} (a : α) (f : α → Except ε β) :
    (Except.ok a >>= f : Except ε β) = f a := rfl

@[simp] theorem except_error_bind {ε α β : Type} (e : ε) (f : α → Except ε β) :
    (Except.error e >>= f : Except ε β) = .error e := rfl

/-! ### PointData (`core/point_data.py`) -/

/-- A time series of a field: Python `Dict[float, Any]`, value type idealised
as `ℚ`. -/
abbrev TimeSeries := List (ℚ × ℚ)

/-- `PointData`: 3D coordinates plus `fields = {field_name: {time: value}}`. -/
structure PointData where
  coordinates : ℚ × ℚ × ℚ
  fields : List (String × TimeSeries)
  deriving DecidableEq, Repr

/-- `DefaultValues.DEFAULT_TIME_FOR_DATASET` (`core/utils.py`). -/
def DEFAULT_TIME_FOR_DATASET : ℚ := 0

/-- A field value supplied to `PointData.__init__`: either a bare scalar or
already a time-mapping. -/
inductive FieldInit where
  | scalar (v : ℚ)
  | series (ts : TimeSeries)
  deriving DecidableEq, Repr

/-- Normalisation done in `PointData.__init__`: a bare scalar is promoted to
a single-time series at the default time stamp. -/
def normalizeFieldInit : FieldInit → TimeSeries
  | .scalar v => [(DEFAULT_TIME_FOR_DATASET, v)]
  | .series ts => ts

/-- Error outcome of `PointData.get_times()` with no field argument:
`ValueError` when the point has no fields, `PointTimeConsistencyError`
(naming the reference field and the offending field) otherwise. -/
inductive TimesErr where
  | noFields
  | inconsistent (refField curField : String)
  deriving DecidableEq, Repr

/-- Set of time keys of a time series (Python `set(field_data.keys())`). -/
def timeKeySet (ts : TimeSeries) : Finset ℚ := (ts.map Prod.fst).toFinset

/-- `PointData.get_times()` with `field_name=None`
(`core/point_data.py:132-159`): compares every field time-key set with the
first field's; raises naming the first field and the first field whose key
set differs; otherwise returns the first field's time keys. -/
def getTimesAll (p : PointData) : Except TimesErr (List ℚ) :=
  match p.fields with
  | [] => .error .noFields
  | (f₀, ts₀) :: rest =>
    match rest.find? (fun fd => decide (timeKeySet fd.2 ≠ timeKeySet ts₀)) with
    | some fd => .error (.inconsistent f₀ fd.1)
    | none => .ok (ts₀.map Prod.fst)

/-- `PointData.__init__` (`core/point_data.py:23-50`).  Returns the
constructed point plus a flag recording whether the caught
`PointTimeConsistencyError` warning branch ran; construction itself never
raises. -/
def mkPointData (coordinates : ℚ × ℚ × ℚ)
    (fields : Option (List (String × FieldInit))) : PointData × Bool :=
  let flds := (fields.getD []).map fun kv => (kv.1, normalizeFieldInit kv.2)
  let p : PointData := ⟨coordinates, flds⟩
  let warned :=
    if flds.isEmpty then false
    else
      match getTimesAll p with
      | .error (.inconsistent _ _) => true
      | _ => false
  (p, warned)

/-- `PointData.get_field_value` / `point[f, t]` (`core/point_data.py:55-80`):
two-level lookup; `KeyError` modelled as `none`. -/
def getFieldValue (p : PointData) (f : String) (t : ℚ) : Option ℚ :=
  (alookup p.fields f).bind fun ts => alookup ts t

/-- `PointData.__setitem__` with a `(field, time)` key
(`core/point_data.py:227-233`): create the field dict if absent, then
`setdefault(time, value)` — never overwrites an existing slot. -/
def setFieldTime (p : PointData) (f : String) (t v : ℚ) : PointData :=
  let fields₁ :=
    if (alookup p.fields f).isSome then p.fields else p.fields ++ [(f, [])]
  { p with fields := amodify fields₁ f fun ts => asetdefault ts t v }

/-- `PointData.__setitem__` with a plain field key
(`core/point_data.py:234-237`): `fields.setdefault(key, value)` — a no-op
when the field already exists. -/
def setFieldSeries (p : PointData) (f : String) (ts : TimeSeries) : PointData :=
  { p with fields := asetdefault p.fields f ts }

/-! ### DataSet (`core/data_set.py`)

Python aliasing: `DataSet._point_index` stores references to the very
objects held in `DataSet.points`, and `add_field_value` mutates the point
in place through the index.  We model the index as a map from coordinates
to the point's position in the ordered list, so an in-place mutation is a
`List.set` at that position, visible through both views. -/

abbrev Coord := ℚ × ℚ × ℚ

structure DataSet where
  source : String
  points : List PointData
  pointIndex : List (Coord × Nat)
  coordsMeta : List (String × Option String)
  fieldsMeta : List (String × Option String)
  deriving DecidableEq, Repr

/-- `DataSet.__init__` (`core/data_set.py:21-57`): the index is built by a
dict comprehension over the initial points, so a later duplicate coordinate
overwrites an earlier one. -/
def mkDataSet (source : String) (points : Option (List PointData))
    (coords fields : Option (List (String × Option String))) : DataSet :=
  let pts := points.getD []
  { source := source
    points := pts
    pointIndex := pts.enum.foldl (fun idx ip => aset idx ip.2.coordinates ip.1) []
    coordsMeta := coords.getD []
    fieldsMeta := fields.getD [] }

/-- `DataSet.add_point` (`core/data_set.py:61-75`): always appends to the
ordered list (a duplicate coordinate only logs a warning), and indexes the
coordinates with `setdefault`, so an existing index entry is kept. -/
def addPoint (ds : DataSet) (p : PointData) : DataSet :=
  { ds with
    points := ds.points ++ [p]
    pointIndex := asetdefault ds.pointIndex p.coordinates ds.points.length }

/-- `DataSet.get_point_by_coordinates` (`core/data_set.py:102-114`):
`_point_index.get(coordinates, None)`. -/
def getPointByCoordinates (ds : DataSet) (c : Coord) : Option PointData :=
  (alookup ds.pointIndex c).bind fun i => ds.points[i]?

/-- The per-point effect of `DataSet.add_field_value`
(`core/data_set.py:96-100`): initialise the field dict if absent, then
`point.fields[field_name][time] = value` — a plain overwriting assignment,
unlike the `setdefault` used by `PointData.__setitem__`. -/
def overwriteFieldTime (p : PointData) (fieldName : String) (time value : ℚ) :
    PointData :=
  let fields₁ :=
    if (alookup p.fields fieldName).isSome then p.fields
    else p.fields ++ [(fieldName, [])]
  { p with fields := amodify fields₁ fieldName fun ts => aset ts time value }

/-- `DataSet.add_field_value` (`core/data_set.py:77-100`): `KeyError` when
the coordinates are absent from the index; otherwise the overwriting write
on the point the index aliases. -/
def addFieldValue (ds : DataSet) (fieldName : String) (time : ℚ) (value : ℚ)
    (pointCoordinates : Coord) : Except String DataSet :=
  match alookup ds.pointIndex pointCoordinates with
  | none => .error ("Tag " ++ toString (repr pointCoordinates) ++ " not found in dataset.")
  | some i =>
    .ok { ds with
      points := ds.points.modify (fun p => overwriteFieldTime p fieldName time value) i }

/-- Index entries of a well-formed dataset point inside the list (true of
every dataset built through `mkDataSet`/`addPoint`, which mirror the only
construction paths in the source). -/
def IndexWF (ds : DataSet) : Prop :=
  ∀ e ∈ ds.pointIndex, e.2 < ds.points.length

/-- Derived field map of the `fields` property when `_fields` is empty
(`core/data_set.py:429-439`).  Python builds it from a `set` comprehension
(unordered); we keep first-appearance order, and no claim depends on the
order.  Every field gets the unit value `some ""`. -/
def derivedFieldsMeta (points : List PointData) : List (String × Option String) :=
  ((points.map (fun p => p.fields.map Prod.fst)).flatten.dedup).map fun f => (f, some "")

/-- The `DataSet.fields` property (`core/data_set.py:429-439`): the stored
metadata when non-empty, otherwise the map derived from the points. -/
def dsFields (ds : DataSet) : List (String × Option String) :=
  if ds.fieldsMeta.isEmpty then derivedFieldsMeta ds.points else ds.fieldsMeta

/-- `DataSet.get_field_values` (`core/data_set.py:154-197`): `NameError`
when the field is not in the `fields` property; otherwise walk the
requested coordinates (default: all index keys), skipping missing points
and missing `(field, time)` slots, returning the found values in request
order. -/
def getFieldValues (ds : DataSet) (fieldName : String) (time : ℚ)
    (pointCoordinates : Option (List Coord)) : Except String (List ℚ) :=
  if (alookup (dsFields ds) fieldName).isNone then
    .error ("Field " ++ fieldName ++ " not in dataset")
  else
    let coords := pointCoordinates.getD (ds.pointIndex.map Prod.fst)
    .ok (coords.foldr (fun c acc =>
      match (alookup ds.pointIndex c).bind (fun i => ds.points[i]?) with
      | none => acc
      | some p =>
        match getFieldValue p fieldName time with
        | none => acc
        | some v => v :: acc) [])

/-! ### Line, Plane, PlaneSet (`core/plane.py`, `core/plane_set.py`) -/

/-- Modelled from the spec: the repository module `core/line.py` (class
`Line`) is imported by `data_set.py` and `plane.py` but is missing from the
sources.  Per spec §3, a `Line`'s identity is its name, tag,
`plane_position` and `line_position`, with an `axis` derived from
tag + flow direction; `points_to_planes` creates one `Line` per distinct
location per tag and registers it under its name.  The name is modelled as
the identity triple `(tag, plane_position, line_position)` — injective, so
distinct locations give distinct names. -/
structure Line where
  tag : String
  plane_position : ℚ
  line_position : ℚ
  axis : String
  deriving DecidableEq, Repr

/-- Modelled from the spec: `Line.__init__` plus `Line.set_line_info`,
which derives the line axis from tag and flow direction (spec §3: "`axis`:
the single free coordinate varying along the line, derived from tag+flow
direction"). -/
def mkLine (tag : String) (planePosition linePosition : ℚ) (flowDirection : String) : Line :=
  ⟨tag, planePosition, linePosition, flowDirection⟩

/-- Modelled from the spec: a line's dict key in `Plane._lines` (its
`name`), determined by its identity triple. -/
def lineName (l : Line) : String × ℚ × ℚ := (l.tag, l.plane_position, l.line_position)

/-- `Info.SUPPORTED_PLANE_TAGS` (`core/utils.py:23`). -/
def SUPPORTED_PLANE_TAGS : List String := ["XY", "XZ", "YX", "YZ", "ZX", "ZY"]

/-- Normal-vector table of `Plane._set_normal` (`core/plane.py:325-337`),
indexed by the sorted tag characters. -/
def normalOfTag (tag : String) : Option Coord :=
  match tag with
  | "XY" => some (0, 0, 1)
  | "YX" => some (0, 0, 1)
  | "XZ" => some (0, 1, 0)
  | "ZX" => some (0, 1, 0)
  | "YZ" => some (1, 0, 0)
  | "ZY" => some (1, 0, 0)
  | _ => none

/-- `Plane` (`core/plane.py`).  `_points` holds references to `PointData`
objects; since Python membership for `PointData` is identity-based (no
`__eq__`), we store the point's object identity as its index in the owning
dataset's list (all list entries are distinct objects).  `_locations` is a
Python `set`; we store insertion order and dedup on insert, reading it
sorted.  `_lines` is a dict keyed by line name. -/
structure Plane where
  tag : String
  fixed_coord : ℚ
  pointIds : List Nat
  locations : List ℚ
  lines : List ((String × ℚ × ℚ) × Line)
  origin : Coord
  normal : Coord
  deriving DecidableEq, Repr

/-- `Plane.__init__` / `__post_init__` (`core/plane.py:50-55`): raises on a
tag outside `SUPPORTED_PLANE_TAGS`, then sets origin `(0,0,0)` and the
tag-derived normal. -/
def mkPlane (tag : String) (fixedCoord : ℚ) : Except String Plane :=
  if tag ∈ SUPPORTED_PLANE_TAGS then
    match normalOfTag tag with
    | some n => .ok ⟨tag, fixedCoord, [], [], [], (0, 0, 0), n⟩
    | none => .error ("Unsupported plane tag " ++ tag)
  else
    .error ("Unsupported tag " ++ tag)

/-- `Plane.add_point` (`core/plane.py:129-138`): raises when the same point
object is already in the plane, else appends. -/
def planeAddPoint (pl : Plane) (pid : Nat) : Except String Plane :=
  if pid ∈ pl.pointIds then
    .error "Point already exists in plane"
  else
    .ok { pl with pointIds := pl.pointIds ++ [pid] }

/-- `Plane.add_location` (`core/plane.py:140-146`): set insertion. -/
def planeAddLocation (pl : Plane) (coordinate : ℚ) : Plane :=
  if coordinate ∈ pl.locations then pl
  else { pl with locations := pl.locations ++ [coordinate] }

/-- The `Plane.locations` property (`core/plane.py:98-105`): raises when
the location set is empty, else returns it sorted. -/
def planeLocations (pl : Plane) : Except String (List ℚ) :=
  if pl.locations.isEmpty then
    .error ("Plane " ++ pl.tag ++ " has no line positions.")
  else
    .ok (pl.locations.mergeSort (fun a b => a ≤ b))

/-- `Plane.add_line` (`core/plane.py:148-157`): raises when a line with the
same name exists, else inserts it into the name-keyed dict. -/
def planeAddLine (pl : Plane) (l : Line) : Except String Plane :=
  if (alookup pl.lines (lineName l)).isSome then
    .error "Line already exists in plane"
  else
    .ok { pl with lines := pl.lines ++ [(lineName l, l)] }

/-- `PlaneSet` (`core/plane_set.py`): a dict indexed by
`(tag, fixed_coord)`. -/
structure PlaneSet where
  index : List ((String × ℚ) × Plane)
  deriving DecidableEq, Repr

/-- `PlaneSet._make_key` (`core/plane_set.py:75-77`). -/
def planeKey (pl : Plane) : String × ℚ := (pl.tag, pl.fixed_coord)

/-- `PlaneSet.add` (`core/plane_set.py:42-49`): raises on a duplicate
`(tag, fixed_coord)` key, else inserts. -/
def psAdd (ps : PlaneSet) (pl : Plane) : Except String PlaneSet :=
  if (alookup ps.index (planeKey pl)).isSome then
    .error ("value " ++ pl.tag ++ " already in PlaneSet")
  else
    .ok ⟨ps.index ++ [(planeKey pl, pl)]⟩

/-- `PlaneSet.get_plane` (`core/plane_set.py:91-96`). -/
def getPlane (ps : PlaneSet) (tag : String) (fixedCoord : ℚ) : Option Plane :=
  alookup ps.index (tag, fixedCoord)

/-- `PlaneSet.get_or_create_plane` (`core/plane_set.py:79-89`): look the
key up, constructing and adding a fresh plane when absent.  Returns the
updated set together with the (stored) plane the caller will mutate. -/
def getOrCreatePlane (ps : PlaneSet) (tag : String) (fixedCoord : ℚ) :
    Except String (PlaneSet × Plane) :=
  match getPlane ps tag fixedCoord with
  | some pl => .ok (ps, pl)
  | none => do
    let pl ← mkPlane tag fixedCoord
    let ps₁ ← psAdd ps pl
    .ok (ps₁, pl)

/-- Write back a mutated plane into the set under its key (Python mutates
the stored object in place). -/
def psSet (ps : PlaneSet) (key : String × ℚ) (pl : Plane) : PlaneSet :=
  ⟨aset ps.index key pl⟩

/-! ### `DataSet.points_to_planes` (`core/data_set.py:290-389`) -/

/-- Inner helper `_direction_to_tags` (`core/data_set.py:308-328`). -/
def directionToTags (direction : String) : Except String (List String) :=
  match direction with
  | "X" => .ok ["XY", "XZ"]
  | "Y" => .ok ["YX", "YZ"]
  | "Z" => .ok ["ZX", "ZY"]
  | _ => .error ("Unsupported flow direction: " ++ direction)

/-- Inner helper `_tag_to_coordinates` (`core/data_set.py:330-356`):
returns `(fixed_coord, location)`; only the tags `XY`, `XZ`, `YZ` are
handled, every other tag raises. -/
def tagToCoordinates (tag : String) (c : Coord) : Except String (ℚ × ℚ) :=
  match tag with
  | "XY" => .ok (c.2.2, c.1)
  | "XZ" => .ok (c.2.1, c.1)
  | "YZ" => .ok (c.1, c.2.1)
  | _ => .error ("Unsupported tag: " ++ tag)

/-- Body of the per-tag point loop (`core/data_set.py:364-371`): compute
`(fixed_coord, location)`, get-or-create the plane, add the point and
register the location, storing the mutated plane back. -/
def processPoint (tag : String) (ps : PlaneSet) (ip : Nat × PointData) :
    Except String PlaneSet := do
  let fl ← tagToCoordinates tag ip.2.coordinates
  let pair ← getOrCreatePlane ps tag fl.1
  let pl₁ ← planeAddPoint pair.2 ip.1
  let pl₂ := planeAddLocation pl₁ fl.2
  .ok (psSet pair.1 (tag, fl.1) pl₂)

/-- The per-tag loop over all points. -/
def processPointsForTag (tag : String) : PlaneSet → List (Nat × PointData) →
    Except String PlaneSet
  | ps, [] => .ok ps
  | ps, ip :: rest => do
    let ps₁ ← processPoint tag ps ip
    processPointsForTag tag ps₁ rest

/-- Line-building phase for one plane (`core/data_set.py:378-387`): one
`Line` per collected location, attached under its name. -/
def addLinesToPlane (flowDirection : String) (pl : Plane) : Except String Plane := do
  let locs ← planeLocations pl
  locs.foldlM (fun acc coord =>
    planeAddLine acc (mkLine pl.tag pl.fixed_coord coord flowDirection)) pl

/-- `DataSet.points_to_planes` (`core/data_set.py:290-389`). -/
def pointsToPlanes (ds : DataSet) (flowDirection : String) : Except String PlaneSet := do
  let tags ← directionToTags flowDirection
  let ps ← tags.foldlM (fun ps tag => processPointsForTag tag ps ds.points.enum) ⟨[]⟩
  let idx ← ps.index.mapM (fun e => do
    let pl ← addLinesToPlane flowDirection e.2
    pure (e.1, pl))
  .ok ⟨idx⟩

/-! ### Metrics engine (`quantitative/computations.py`)

The three numeric kernels `_compute_nmse`, `_compute_mean_bias`,
`_compute_geometric_variance` are floating-point routines (numpy means,
`log`, `exp`); `compute_metrics` treats them uniformly through the
`metrics` dict and catches their `ValueError`/`TypeError` per combination.
We embed the surrounding control flow exactly and abstract each kernel as
a function `List ℚ → List ℚ → Except Unit ℚ` (applied as
`metric_func(predictions, experiment)`); the control-flow claims are
proved for every kernel table, hence in particular for the real one. -/

abbrev MetricFn := List ℚ → List ℚ → Except Unit ℚ

abbrev MetricTable := List (String × MetricFn)

/-- Nested results dict `metric_name → time → field_name → float`. -/
abbrev Results := List (String × List (ℚ × List (String × ℚ)))

/-- `results.setdefault(metric_name, {}).setdefault(t, {})[f] = value`
(`quantitative/computations.py:181-183`). -/
def resultsInsert (r : Results) (m : String) (t : ℚ) (f : String) (v : ℚ) : Results :=
  amodify (asetdefault r m []) m fun tm =>
    amodify (asetdefault tm t []) t fun fm => aset fm f v

/-- `store_individual_contribution` (`quantitative/computations.py:20-48`):
raises on a size mismatch between the point list and the contribution
array, otherwise writes each contribution through `point[name, time] =
contributions[idx]` (the set-if-absent keyed write) and finally sets
`dataset.fields[name] = None` on the `fields` property. -/
def storeIndividualContribution (ds : DataSet) (name : String) (time : ℚ)
    (contributions : List ℚ) : Except String DataSet :=
  if ds.points.length ≠ contributions.length then
    .error "Size mismatch between points and contributions"
  else
    let pts := (ds.points.zip contributions).map fun pv =>
      setFieldTime pv.1 name time pv.2
    let meta₀ := if ds.fieldsMeta.isEmpty then derivedFieldsMeta pts else ds.fieldsMeta
    .ok { ds with points := pts, fieldsMeta := aset meta₀ name none }

/-- `_compute_relative_errors` (`quantitative/computations.py:204-229`):
`safe_array_conversion` rejects empty arrays (NaN/Inf cannot arise over
`ℚ`), then numpy evaluates `|experiment - predictions| / |experiment|`
elementwise, broadcasting a length-1 operand and raising on any other
length mismatch. -/
def computeRelativeErrors (experiment predictions : List ℚ) :
    Except String (List ℚ) :=
  if experiment.isEmpty ∨ predictions.isEmpty then
    .error "Data cannot be empty"
  else if experiment.length = predictions.length then
    .ok ((experiment.zip predictions).map fun ep => |ep.1 - ep.2| / |ep.1|)
  else if experiment.length = 1 then
    .ok (predictions.map fun p => |experiment.headI - p| / |experiment.headI|)
  else if predictions.length = 1 then
    .ok (experiment.map fun e => |e - predictions.headI| / |e|)
  else
    .error "operands could not be broadcast together"

/-- Python `str.lower()`, written characterwise so that proofs can
evaluate it. -/
def pyLower (s : String) : String := ⟨s.data.map Char.toLower⟩

/-- Field extraction of `compute_metrics`
(`quantitative/computations.py:109-112`). -/
def extractFields (fields : Option (List String)) (refPoint : PointData) :
    Except String (List String) :=
  match fields with
  | some fs => .ok fs
  | none =>
    if refPoint.fields.isEmpty then
      .error "Reference point has no fields"
    else
      .ok (refPoint.fields.map Prod.fst)

/-- Time extraction (`quantitative/computations.py:115-118`): a
`PointTimeConsistencyError` from `get_times()` propagates uncaught. -/
def extractTimes (timeValues : Option (List ℚ)) (refPoint : PointData) :
    Except String (List ℚ) :=
  match timeValues with
  | some ts => .ok ts
  | none =>
    match getTimesAll refPoint with
    | .error _ => .error "Inconsistent time steps at reference point"
    | .ok ts =>
      if ts.isEmpty then
        .error "No time values found in the simulation dataset"
      else
        .ok ts

/-- Pre-computation phase of `compute_metrics`
(`quantitative/computations.py:89-128`), in source order: empty-dataset
checks, reference point, field extraction, time extraction, the
experiment-source precondition, and the coordinate extraction.  Returns
`(fields, time_values, points_coordinates)`. -/
def computePrechecks (dsExp dsSim : DataSet) (timeValues : Option (List ℚ))
    (fields : Option (List String)) :
    Except String (List String × List ℚ × List Coord) :=
  if dsExp.points.length = 0 then
    .error "Experiment dataset is empty"
  else if dsSim.points.length = 0 then
    .error "Simulation dataset is empty"
  else
    match dsSim.points[0]? with
    | none => .error "Simulation dataset has no points"
    | some refPoint =>
      match extractFields fields refPoint with
      | .error e => .error e
      | .ok flds =>
        match extractTimes timeValues refPoint with
        | .error e => .error e
        | .ok times =>
          if pyLower dsExp.source ≠ "experiment"
              ∧ pyLower dsSim.source ≠ "experiment" then
            .error "At least one dataset must have experiment as its source."
          else
            let coords := dsSim.pointIndex.map Prod.fst
            if coords.isEmpty then
              .error "No valid coordinates found in the simulation dataset"
            else
              .ok (flds, times, coords)

/-- The per-field experiment cache (`quantitative/computations.py:133-143`):
`get_field_values(f, time=0, point_coordinates=coords)` with every
exception turned into a `None` entry. -/
def buildCache (dsExp : DataSet) (coords : List Coord) (fields : List String) :
    List (String × Option (List ℚ)) :=
  fields.map fun f =>
    (f, match getFieldValues dsExp f 0 (some coords) with
        | .ok vs => some vs
        | .error _ => none)

/-- One `(field, time)` iteration of the main loop
(`quantitative/computations.py:153-196`): fetch predictions, bail out (the
outer `except` logs and continues) on any failure, store the relative-error
contributions, then run every metric kernel, recording successes and
skipping per-metric failures. -/
def processFieldTime (table : MetricTable) (f : String) (expVals : List ℚ)
    (st : DataSet × Results) (t : ℚ) : DataSet × Results :=
  match getFieldValues st.1 f t none with
  | .error _ => st
  | .ok predictions =>
    if predictions.isEmpty then st
    else
      match computeRelativeErrors expVals predictions with
      | .error _ => st
      | .ok contributions =>
        match storeIndividualContribution st.1 ("NRE_" ++ f) t contributions with
        | .error _ => st
        | .ok sim₁ =>
          (sim₁, table.foldl (fun r mf =>
            match mf.2 predictions expVals with
            | .error _ => r
            | .ok v => resultsInsert r mf.1 t f v) st.2)

/-- One field iteration (`quantitative/computations.py:146-152`): skip the
field when its cached experiment data is `None` or empty. -/
def processField (table : MetricTable) (times : List ℚ)
    (cache : List (String × Option (List ℚ))) (st : DataSet × Results)
    (f : String) : DataSet × Results :=
  match alookup cache f with
  | none => st
  | some none => st
  | some (some expVals) =>
    if expVals.isEmpty then st
    else times.foldl (processFieldTime table f expVals) st

/-- The whole main loop of `compute_metrics`
(`quantitative/computations.py:146-196`), threading the mutated simulation
dataset. -/
def metricLoop (table : MetricTable) (dsSim : DataSet) (fields : List String)
    (times : List ℚ) (cache : List (String × Option (List ℚ))) :
    DataSet × Results :=
  fields.foldl (processField table times cache) (dsSim, [])

/-- `compute_metrics` (`quantitative/computations.py:51-202`): prechecks,
experiment cache, main loop, and the final empty-results check.  The first
component is the (possibly mutated) simulation dataset, the second the
raised error or the returned nested results. -/
def computeMetrics (table : MetricTable) (dsExp dsSim : DataSet)
    (timeValues : Option (List ℚ)) (fields : Option (List String)) :
    DataSet × Except String Results :=
  match computePrechecks dsExp dsSim timeValues fields with
  | .error e => (dsSim, .error e)
  | .ok (flds, times, coords) =>
    let cache := buildCache dsExp coords flds
    let st := metricLoop table dsSim flds times cache
    (st.1,
      if st.2.isEmpty then
        .error "No valid metrics could be computed."
      else
        .ok st.2)

/-! ### Helper lemmas about the keyed writes -/

/-- A keyed write never clobbers an existing `(field, time)` slot. -/
theorem setFieldTime_preserves (p : PointData) (f : String) (t v w : ℚ)
    (h : getFieldValue p f t = some w) :
    getFieldValue (setFieldTime p f t v) f t = some w := by
  unfold getFieldValue at h ⊢
  unfold setFieldTime
  cases hf : alookup p.fields f with
  | none => rw [hf] at h; simp at h
  | some ts =>
    rw [hf] at h
    simp only [Option.some_bind] at h
    simp only [hf, Option.isSome_some, if_true, alookup_amodify_self, hf]
    show alookup (asetdefault ts t v) t = some w
    rw [alookup_asetdefault_present]
    · exact h
    · rw [h]; rfl

/-- A keyed write into an absent `(field, time)` slot stores the value. -/
theorem setFieldTime_absent (p : PointData) (f : String) (t v : ℚ)
    (h : getFieldValue p f t = none) :
    getFieldValue (setFieldTime p f t v) f t = some v := by
  unfold getFieldValue at h ⊢
  unfold setFieldTime
  cases hf : alookup p.fields f with
  | none =>
    simp only [hf, Option.isSome_none, Bool.false_eq_true, if_false,
      alookup_amodify_self, alookup_append, hf, Option.none_orElse]
    simp [alookup, asetdefault, Option.orElse]
  | some ts =>
    rw [hf] at h
    simp only [Option.some_bind] at h
    simp only [hf, Option.isSome_some, if_true, alookup_amodify_self, hf]
    show alookup (asetdefault ts t v) t = some v
    exact alookup_asetdefault_absent ts t v h

/-- A whole-field keyed write leaves a point with that field unchanged. -/
theorem setFieldSeries_present (p : PointData) (f : String) (ts : TimeSeries)
    (h : (alookup p.fields f).isSome) :
    setFieldSeries p f ts = p := by
  unfold setFieldSeries asetdefault
  rw [if_pos h]

/-- Fields untouched by a keyed write keep their value. -/
theorem setFieldTime_other (p : PointData) (f f' : String) (t v t' : ℚ)
    (hne : f ≠ f') :
    getFieldValue (setFieldTime p f t v) f' t' = getFieldValue p f' t' := by
  unfold getFieldValue setFieldTime
  simp only
  rw [alookup_amodify_other _ _ _ _ hne]
  by_cases hf : (alookup p.fields f).isSome
  · rw [if_pos hf]
  · rw [if_neg hf, alookup_append]
    simp only [alookup, hne, if_false]
    cases alookup p.fields f' <;> simp [Option.orElse]

/-- C4: the keyed `(field, time)` write is set-if-absent — it never
overwrites an existing value — the whole-field write is a no-op when the
field already exists, and a write into an absent `(field, time)` slot
stores the value.  (`PointData.__setitem__`, `core/point_data.py:219-237`.) -/
theorem keyed_writes_are_set_if_absent (p : PointData) (f : String)
    (t v w : ℚ) (ts : TimeSeries) :
    (getFieldValue p f t = some w →
      getFieldValue (setFieldTime p f t v) f t = some w)
    ∧ ((alookup p.fields f).isSome → setFieldSeries p f ts = p)
    ∧ (getFieldValue p f t = none →
      getFieldValue (setFieldTime p f t v) f t = some v) :=
  ⟨setFieldTime_preserves p f t v w, setFieldSeries_present p f ts,
    setFieldTime_absent p f t v⟩

/-- Sample point used by concrete witnesses. -/
def samplePoint : PointData := ⟨(0, 0, 0), [("U", [(0, 5)])]⟩

/-- Witness for C4 at a concrete point: an occupied slot keeps value `5`
under a write of `7`, the whole-field write is a no-op, and a fresh time
slot receives the written value. -/
theorem keyed_writes_are_set_if_absent_witness :
    getFieldValue (setFieldTime samplePoint "U" 0 7) "U" 0 = some 5
    ∧ setFieldSeries samplePoint "U" [(1, 9)] = samplePoint
    ∧ getFieldValue (setFieldTime samplePoint "U" 1 7) "U" 1 = some 7 :=
  ⟨(keyed_writes_are_set_if_absent samplePoint "U" 0 7 5 [(1, 9)]).1 (by decide),
    (keyed_writes_are_set_if_absent samplePoint "U" 0 7 5 [(1, 9)]).2.1 (by decide),
    (keyed_writes_are_set_if_absent samplePoint "U" 1 7 5 []).2.2 (by decide)⟩

/-! ### C2, C3: DataSet mutation -/

/-- A successful `alookup` exhibits a list member. -/
theorem alookup_mem {K V : Type} [DecidableEq K] :
    ∀ {l : List (K × V)} {k : K} {v : V}, alookup l k = some v → (k, v) ∈ l := by
  intro l
  induction l with
  | nil => intro k v h; simp [alookup] at h
  | cons hd tl ih =>
    intro k v h
    obtain ⟨k₀, v₀⟩ := hd
    by_cases hk : k₀ = k
    · subst hk
      simp [alookup] at h
      simp [h]
    · simp [alookup, hk] at h
      exact List.mem_cons_of_mem _ (ih h)

/-- First sample point for duplicate-coordinate scenarios. -/
def dupPointA : PointData := ⟨(0, 0, 0), [("a", [(0, 1)])]⟩

/-- Second sample point with the same coordinates. -/
def dupPointB : PointData := ⟨(0, 0, 0), [("b", [(0, 2)])]⟩

/-- A dataset built by `add_point` on two points with equal coordinates. -/
def dupDataSet : DataSet :=
  addPoint (addPoint (mkDataSet "experiment" none none none) dupPointA) dupPointB

/-- C2 counterexample: after inserting two points with the same
coordinates, both entries remain in the ordered list, but the coordinate
index resolves to the FIRST insertion (`setdefault` keeps the stored
entry), not the newest one as the claim states. -/
theorem add_point_duplicate_resolves_oldest_cex :
    dupDataSet.points = [dupPointA, dupPointB]
    ∧ getPointByCoordinates dupDataSet (0, 0, 0) = some dupPointA
    ∧ dupPointA ≠ dupPointB := by
  refine ⟨by decide, by decide, by decide⟩

/-- C2 (amended): `add_point` with duplicate coordinates does not raise,
appends the new point so both entries remain in the ordered list, and
leaves the coordinate lookup target unchanged — the index keeps resolving
to the OLDEST insertion (`core/data_set.py:61-75`, `102-114`). -/
theorem add_point_duplicate_appends_and_keeps_oldest (ds : DataSet)
    (p : PointData) (hwf : IndexWF ds)
    (hdup : (alookup ds.pointIndex p.coordinates).isSome) :
    (addPoint ds p).points = ds.points ++ [p]
    ∧ getPointByCoordinates (addPoint ds p) p.coordinates
      = getPointByCoordinates ds p.coordinates := by
  constructor
  · rfl
  · unfold getPointByCoordinates addPoint
    simp only
    rw [asetdefault, if_pos hdup]
    obtain ⟨i, hi⟩ := Option.isSome_iff_exists.mp hdup
    rw [hi]
    simp only [Option.some_bind]
    exact List.getElem?_append_left (hwf _ (alookup_mem hi))

/-- Witness for C2 (amended) at the concrete duplicate-coordinate
dataset. -/
theorem add_point_duplicate_appends_and_keeps_oldest_witness :
    (addPoint (addPoint (mkDataSet "experiment" none none none) dupPointA)
        dupPointB).points
      = (addPoint (mkDataSet "experiment" none none none) dupPointA).points
        ++ [dupPointB]
    ∧ getPointByCoordinates
        (addPoint (addPoint (mkDataSet "experiment" none none none) dupPointA)
          dupPointB) (0, 0, 0)
      = getPointByCoordinates
          (addPoint (mkDataSet "experiment" none none none) dupPointA)
          (0, 0, 0) :=
  add_point_duplicate_appends_and_keeps_oldest
    (addPoint (mkDataSet "experiment" none none none) dupPointA) dupPointB
    (by unfold IndexWF; decide) (by decide)

/-- The dataset on which C3 is refuted: one point whose field `U` already
holds `5` at time `1`. -/
def c3DataSet : DataSet :=
  mkDataSet "experiment" (some [⟨(0, 0, 0), [("U", [(1, 5)])]⟩]) none none

/-- C3 counterexample: `add_field_value` on an occupied `(field, time)`
slot REPLACES the stored value (`point.fields[field][time] = value` is a
plain dict assignment), so the stored value becomes the new `7`, not the
old `5` that the first-write-wins claim predicts. -/
theorem add_field_value_overwrites_cex :
    (addFieldValue c3DataSet "U" 1 7 (0, 0, 0)).map
        (fun d => (getPointByCoordinates d (0, 0, 0)).bind
          fun p => getFieldValue p "U" 1)
      = .ok (some 7)
    ∧ getFieldValue ⟨(0, 0, 0), [("U", [(1, 5)])]⟩ "U" 1 = some 5 := by
  refine ⟨by rfl, by decide⟩

/-- The value stored by `overwriteFieldTime` is the newly written one. -/
theorem overwriteFieldTime_sets (p : PointData) (f : String) (t v : ℚ) :
    getFieldValue (overwriteFieldTime p f t v) f t = some v := by
  unfold getFieldValue overwriteFieldTime
  by_cases hf : (alookup p.fields f).isSome
  · obtain ⟨ts, hts⟩ := Option.isSome_iff_exists.mp hf
    rw [hts]
    simp only [Option.isSome_some, if_true, alookup_amodify_self, hts,
      Option.map_some', Option.some_bind]
    exact alookup_aset_self ts t v
  · rw [Option.not_isSome_iff_eq_none.mp hf]
    simp only [Option.isSome_none, Bool.false_eq_true, if_false,
      alookup_amodify_self, alookup_append,
      Option.not_isSome_iff_eq_none.mp hf]
    simp [alookup, aset, Option.orElse]

/-- C3 (amended): `add_field_value` raises the point-not-found error
exactly when the coordinates are absent from the index; when they are
present it creates the field's time-map if absent and OVERWRITES the
stored value with the new one (last write wins, bypassing the PointData
set-if-absent write contract) (`core/data_set.py:77-100`). -/
theorem add_field_value_errors_iff_absent_and_overwrites (ds : DataSet)
    (f : String) (t v : ℚ) (c : Coord) (hwf : IndexWF ds) :
    (alookup ds.pointIndex c = none →
      ∃ e, addFieldValue ds f t v c = .error e)
    ∧ (∀ i, alookup ds.pointIndex c = some i →
      ∃ ds₂, addFieldValue ds f t v c = .ok ds₂
        ∧ ((getPointByCoordinates ds₂ c).bind fun q => getFieldValue q f t)
          = some v) := by
  constructor
  · intro h
    unfold addFieldValue
    rw [h]
    exact ⟨_, rfl⟩
  · intro i hi
    refine ⟨{ ds with
        points := ds.points.modify (fun p => overwriteFieldTime p f t v) i },
      ?_, ?_⟩
    · unfold addFieldValue
      rw [hi]
    · unfold getPointByCoordinates
      simp only [hi, Option.some_bind]
      have hlen : i < ds.points.length := hwf _ (alookup_mem hi)
      rw [List.getElem?_modify_eq]
      rw [List.getElem?_eq_getElem hlen]
      simp only [Option.map_some, Option.some_bind]
      exact overwriteFieldTime_sets _ f t v

/-- Witness for C3 (amended): both branches at concrete inputs. -/
theorem add_field_value_errors_iff_absent_and_overwrites_witness :
    (∃ e, addFieldValue c3DataSet "U" 1 7 (9, 9, 9) = .error e)
    ∧ (∃ ds₂, addFieldValue c3DataSet "U" 1 7 (0, 0, 0) = .ok ds₂
        ∧ ((getPointByCoordinates ds₂ (0, 0, 0)).bind
            fun q => getFieldValue q "U" 1) = some 7) :=
  ⟨(add_field_value_errors_iff_absent_and_overwrites c3DataSet "U" 1 7
      (9, 9, 9) (by unfold IndexWF; decide)).1 (by decide),
    (add_field_value_errors_iff_absent_and_overwrites c3DataSet "U" 1 7
      (0, 0, 0) (by unfold IndexWF; decide)).2 0 (by decide)⟩

/-! ### C6: time-consistency checking -/

/-- C6: for a PointData with at least two fields, `get_times()` with no
argument returns the first field's time keys when every field's time-key
set equals the first field's, and raises the inconsistency error naming
the first field and the FIRST field whose key set differs otherwise
(`List.find?` expresses "first"); and the constructor completes normally
on already-inconsistent initial fields — it returns the normalised point
and merely sets the warning flag (`core/point_data.py:23-50`, `104-159`). -/
theorem get_times_checks_consistency (coords : Coord)
    (f₀ fd₁ : String × TimeSeries) (rest : List (String × TimeSeries))
    (fs : List (String × FieldInit)) (a b : String) :
    ((∀ fd ∈ fd₁ :: rest, timeKeySet fd.2 = timeKeySet f₀.2) →
      getTimesAll ⟨coords, f₀ :: fd₁ :: rest⟩ = .ok (f₀.2.map Prod.fst))
    ∧ (∀ fd, (fd₁ :: rest).find?
          (fun fd => decide (timeKeySet fd.2 ≠ timeKeySet f₀.2)) = some fd →
      getTimesAll ⟨coords, f₀ :: fd₁ :: rest⟩ = .error (.inconsistent f₀.1 fd.1))
    ∧ ((mkPointData coords (some fs)).1
      = ⟨coords, fs.map fun kv => (kv.1, normalizeFieldInit kv.2)⟩)
    ∧ (getTimesAll (mkPointData coords (some fs)).1 = .error (.inconsistent a b) →
      (mkPointData coords (some fs)).2 = true) := by
  refine ⟨?_, ?_, rfl, ?_⟩
  · intro hcons
    unfold getTimesAll
    simp only
    have : (fd₁ :: rest).find?
        (fun fd => decide (timeKeySet fd.2 ≠ timeKeySet f₀.2)) = none := by
      rw [List.find?_eq_none]
      intro x hx
      simp [hcons x hx]
    rw [this]
  · intro fd hfd
    unfold getTimesAll
    simp only
    rw [hfd]
  · intro h
    unfold mkPointData at h ⊢
    simp only [Option.getD_some] at h ⊢
    by_cases he : (fs.map fun kv => (kv.1, normalizeFieldInit kv.2)).isEmpty
    · exfalso
      rw [List.isEmpty_iff] at he
      unfold getTimesAll at h
      rw [he] at h
      simp at h
    · rw [if_neg he, h]

/-- Witness for C6: a consistent two-field point, an inconsistent
two-field point naming fields `a` and `b`, and a constructor run over
inconsistent initial data that completes with the warning flag set. -/
theorem get_times_checks_consistency_witness :
    getTimesAll ⟨(0, 0, 0), [("a", [(0, 1)]), ("b", [(0, 2)])]⟩ = .ok [0]
    ∧ getTimesAll ⟨(0, 0, 0), [("a", [(0, 1)]), ("b", [(1, 2)])]⟩
      = .error (.inconsistent "a" "b")
    ∧ (mkPointData (0, 0, 0) (some [("a", .scalar 1), ("b", .series [(1, 2)])])).1
      = ⟨(0, 0, 0), [("a", [(0, 1)]), ("b", [(1, 2)])]⟩
    ∧ (mkPointData (0, 0, 0) (some [("a", .scalar 1), ("b", .series [(1, 2)])])).2
      = true :=
  ⟨(get_times_checks_consistency (0, 0, 0) ("a", [(0, 1)]) ("b", [(0, 2)]) []
      [] "a" "b").1 (by decide),
    (get_times_checks_consistency (0, 0, 0) ("a", [(0, 1)]) ("b", [(1, 2)]) []
      [] "a" "b").2.1 ("b", [(1, 2)]) (by decide),
    (get_times_checks_consistency (0, 0, 0) ("a", [(0, 1)]) ("b", [(1, 2)]) []
      [("a", .scalar 1), ("b", .series [(1, 2)])] "a" "b").2.2.1,
    (get_times_checks_consistency (0, 0, 0) ("a", [(0, 1)]) ("b", [(1, 2)]) []
      [("a", .scalar 1), ("b", .series [(1, 2)])] "a" "b").2.2.2 (by rfl)⟩

/-! ### C7: PlaneSet get-or-create idempotence, add duplicates -/

/-- Every supported tag has a normal vector. -/
theorem normalOfTag_isSome_of_supported (tag : String)
    (h : tag ∈ SUPPORTED_PLANE_TAGS) : (normalOfTag tag).isSome := by
  simp only [SUPPORTED_PLANE_TAGS, List.mem_cons, List.not_mem_nil,
    or_false] at h
  rcases h with rfl | rfl | rfl | rfl | rfl | rfl <;> rfl

/-- C7: for a supported tag, `get_or_create_plane` twice with identical
arguments succeeds and the second call returns the SAME stored plane and
leaves the set unchanged, whereas `add` with a plane whose
`(tag, fixed_coord)` key is already present raises the duplicate error
(`core/plane_set.py:42-48`, `79-89`). -/
theorem get_or_create_plane_idempotent_add_raises (ps : PlaneSet)
    (tag : String) (fc : ℚ) (htag : tag ∈ SUPPORTED_PLANE_TAGS) :
    ∃ ps₁ pl, getOrCreatePlane ps tag fc = .ok (ps₁, pl)
      ∧ getOrCreatePlane ps₁ tag fc = .ok (ps₁, pl)
      ∧ ∀ pl₂ : Plane, planeKey pl₂ = (tag, fc) →
        ∃ e, psAdd ps₁ pl₂ = .error e := by
  cases h : getPlane ps tag fc with
  | some pl =>
    refine ⟨ps, pl, ?_, ?_, ?_⟩
    · unfold getOrCreatePlane
      rw [h]
    · unfold getOrCreatePlane
      rw [h]
    · intro pl₂ hkey
      unfold psAdd
      rw [hkey]
      unfold getPlane at h
      rw [if_pos (by rw [h]; rfl)]
      exact ⟨_, rfl⟩
  | none =>
    obtain ⟨n, hn⟩ := Option.isSome_iff_exists.mp
      (normalOfTag_isSome_of_supported tag htag)
    have hlook : alookup ps.index (tag, fc) = none := h
    have hmk : mkPlane tag fc = .ok ⟨tag, fc, [], [], [], (0, 0, 0), n⟩ := by
      unfold mkPlane
      rw [if_pos htag, hn]
    have hadd : psAdd ps ⟨tag, fc, [], [], [], (0, 0, 0), n⟩ =
        .ok ⟨ps.index ++ [((tag, fc), ⟨tag, fc, [], [], [], (0, 0, 0), n⟩)]⟩ := by
      unfold psAdd planeKey
      rw [if_neg (by rw [hlook]; simp)]
    refine ⟨⟨ps.index ++ [((tag, fc), ⟨tag, fc, [], [], [], (0, 0, 0), n⟩)]⟩,
      ⟨tag, fc, [], [], [], (0, 0, 0), n⟩, ?_, ?_, ?_⟩
    · unfold getOrCreatePlane
      rw [h, hmk, except_ok_bind, hadd, except_ok_bind]
    · unfold getOrCreatePlane getPlane
      simp only [alookup_append, hlook, Option.none_orElse]
      simp [alookup, Option.orElse]
    · intro pl₂ hkey
      unfold psAdd
      rw [hkey]
      simp only [alookup_append, hlook]
      rw [if_pos (by simp [alookup, Option.orElse])]
      exact ⟨_, rfl⟩

/-- Witness for C7 on the empty plane set and the supported tag `XY`. -/
theorem get_or_create_plane_idempotent_add_raises_witness :
    ∃ ps₁ pl, getOrCreatePlane ⟨[]⟩ "XY" 0 = .ok (ps₁, pl)
      ∧ getOrCreatePlane ps₁ "XY" 0 = .ok (ps₁, pl)
      ∧ ∀ pl₂ : Plane, planeKey pl₂ = ("XY", 0) →
        ∃ e, psAdd ps₁ pl₂ = .error e :=
  get_or_create_plane_idempotent_add_raises ⟨[]⟩ "XY" 0 (by decide)

/-! ### C10: repeated NRE stores keep the first value -/

/-- C10: when a simulation point already holds a value for field `name` at
time `t`, a later `store_individual_contribution` for that field and time
succeeds (given matching lengths) but leaves that per-point value
unchanged, silently dropping the new contribution: each per-point write
goes through the set-if-absent keyed assignment
(`quantitative/computations.py:44-45`, `core/point_data.py:227-233`). -/
theorem store_individual_contribution_keeps_existing (ds : DataSet)
    (name : String) (t : ℚ) (contrib : List ℚ) (i : Nat) (v : ℚ)
    (hlen : ds.points.length = contrib.length)
    (hval : (ds.points[i]?.bind fun p => getFieldValue p name t) = some v) :
    ∃ ds₂, storeIndividualContribution ds name t contrib = .ok ds₂
      ∧ (ds₂.points[i]?.bind fun p => getFieldValue p name t) = some v := by
  cases hp : ds.points[i]? with
  | none => rw [hp] at hval; simp at hval
  | some p =>
    rw [hp] at hval
    simp only [Option.some_bind] at hval
    obtain ⟨hi, -⟩ := List.getElem?_eq_some_iff.mp hp
    have hic : i < contrib.length := hlen ▸ hi
    obtain ⟨c, hc⟩ := Option.isSome_iff_exists.mp
      (by rw [List.getElem?_eq_getElem hic]; rfl :
        (contrib[i]?).isSome)
    refine ⟨{ ds with
        points := (ds.points.zip contrib).map fun pv =>
          setFieldTime pv.1 name t pv.2,
        fieldsMeta := aset
          (if ds.fieldsMeta.isEmpty then
            derivedFieldsMeta ((ds.points.zip contrib).map fun pv =>
              setFieldTime pv.1 name t pv.2)
          else ds.fieldsMeta) name none }, ?_, ?_⟩
    · unfold storeIndividualContribution
      rw [if_neg (by omega)]
    · simp only [List.getElem?_map]
      have hzip : (ds.points.zip contrib)[i]? = some (p, c) :=
        List.getElem?_zip_eq_some.mpr ⟨hp, hc⟩
      rw [hzip]
      simp only [Option.map_some', Option.some_bind]
      exact setFieldTime_preserves p name t c v hval

/-- Witness for C10: a one-point dataset whose field `NRE_U` already holds
`5` at time `0`; storing a new contribution `7` keeps `5`. -/
theorem store_individual_contribution_keeps_existing_witness :
    ∃ ds₂, storeIndividualContribution
        (mkDataSet "sim" (some [⟨(0, 0, 0), [("NRE_U", [(0, 5)])]⟩]) none none)
        "NRE_U" 0 [7] = .ok ds₂
      ∧ (ds₂.points[0]?.bind fun p => getFieldValue p "NRE_U" 0) = some 5 :=
  store_individual_contribution_keeps_existing
    (mkDataSet "sim" (some [⟨(0, 0, 0), [("NRE_U", [(0, 5)])]⟩]) none none)
    "NRE_U" 0 [7] 0 5 (by decide) (by decide)

/-! ### C1: `points_to_planes` on flow directions Y and Z -/

/-- A minimal non-empty dataset: one point at the origin with no fields. -/
def c1DataSet : DataSet :=
  mkDataSet "experiment" (some [⟨(0, 0, 0), []⟩]) none none

/-- C1 (code bug evaluation): on a non-empty dataset,
`points_to_planes('Y')` raises `Unsupported tag: YX` and
`points_to_planes('Z')` raises `Unsupported tag: ZX` — the tags that
`_direction_to_tags` itself emits and that `Info.SUPPORTED_PLANE_TAGS`
declares supported are rejected by `_tag_to_coordinates`
(`core/data_set.py:319-356`), so no point is ever placed for these flow
directions, contradicting the claimed success for every d in {X, Y, Z}. -/
theorem points_to_planes_reverse_tags_raise :
    pointsToPlanes c1DataSet "Y" = .error "Unsupported tag: YX"
    ∧ pointsToPlanes c1DataSet "Z" = .error "Unsupported tag: ZX" :=
  ⟨rfl, rfl⟩

/-! ### C5 groundwork: characterisation of the `points_to_planes` folds -/

theorem alookup_eq_none_iff {K V : Type} [DecidableEq K]
    (l : List (K × V)) (k : K) :
    alookup l k = none ↔ k ∉ l.map Prod.fst := by
  induction l with
  | nil => simp [alookup]
  | cons hd tl ih =>
    obtain ⟨k₀, v₀⟩ := hd
    by_cases h : k₀ = k
    · subst h
      simp [alookup]
    · simp [alookup, h, ih, Ne.symm h]

/-- The key list survives an in-place overwrite. -/
theorem aset_map_fst_of_present {K V : Type} [DecidableEq K]
    (l : List (K × V)) (k : K) (v : V) (h : (alookup l k).isSome) :
    (aset l k v).map Prod.fst = l.map Prod.fst := by
  induction l with
  | nil => simp [alookup] at h
  | cons hd tl ih =>
    obtain ⟨k₀, v₀⟩ := hd
    by_cases hk : k₀ = k
    · subst hk
      simp [aset]
    · simp only [alookup, hk, if_false] at h
      simp [aset, hk, ih h]

/-- With pairwise-distinct keys a list member is what lookup finds. -/
theorem alookup_of_mem_of_nodup {K V : Type} [DecidableEq K]
    {l : List (K × V)} {e : K × V} (hnd : (l.map Prod.fst).Nodup)
    (hmem : e ∈ l) : alookup l e.1 = some e.2 := by
  induction l with
  | nil => simp at hmem
  | cons hd tl ih =>
    obtain ⟨k₀, v₀⟩ := hd
    simp only [List.map_cons, List.nodup_cons] at hnd
    rcases List.mem_cons.mp hmem with rfl | hmem₂
    · simp [alookup]
    · have hne : k₀ ≠ e.1 := by
        intro hk
        exact hnd.1 (hk ▸ List.mem_map_of_mem Prod.fst hmem₂)
      simp only [alookup, hne, if_false]
      exact ih hnd.2 hmem₂

/-- Lookup commutes with a value-only transformation of the entries. -/
theorem alookup_map_value {K V W : Type} [DecidableEq K]
    (l : List (K × V)) (g : V → W) (k : K) :
    alookup (l.map fun e => (e.1, g e.2)) k = (alookup l k).map g := by
  induction l with
  | nil => simp [alookup]
  | cons hd tl ih =>
    obtain ⟨k₀, v₀⟩ := hd
    by_cases h : k₀ = k <;> simp [alookup, h, ih]

/-- Key-based filtering commutes with a value-only transformation. -/
theorem filter_key_map_value {K V W : Type} (l : List (K × V)) (g : V → W)
    (p : K → Bool) :
    ((l.map fun e => (e.1, g e.2)).filter fun e => p e.1).length
      = (l.filter fun e => p e.1).length := by
  induction l with
  | nil => rfl
  | cons hd tl ih =>
    by_cases h : p hd.1 <;> simp [List.filter_cons, h, ih]

/-- Number of entries whose key satisfies `p`, counted through the key
set, for an association list with pairwise-distinct keys. -/
theorem length_filter_key_eq_card {K V : Type} [DecidableEq K]
    (l : List (K × V)) (p : K → Bool) (hnd : (l.map Prod.fst).Nodup) :
    (l.filter fun e => p e.1).length
      = ((l.map Prod.fst).toFinset.filter fun k => p k).card := by
  induction l with
  | nil => simp
  | cons hd tl ih =>
    simp only [List.map_cons, List.nodup_cons] at hnd
    have hnotin : hd.1 ∉ (tl.map Prod.fst).toFinset := by
      simp only [List.mem_toFinset]
      exact hnd.1
    by_cases h : p hd.1
    · rw [List.filter_cons, if_pos (by simpa using h)]
      simp only [List.map_cons, List.toFinset_cons]
      rw [Finset.filter_insert, if_pos h,
        Finset.card_insert_of_not_mem (fun hc => hnotin (Finset.mem_of_mem_filter _ hc))]
      simp [ih hnd.2]
    · rw [List.filter_cons, if_neg (by simpa using h)]
      simp only [List.map_cons, List.toFinset_cons]
      rw [Finset.filter_insert, if_neg h]
      exact ih hnd.2

theorem list_toFinset_map {α β : Type} [DecidableEq α] [DecidableEq β]
    (l : List α) (f : α → β) : (l.map f).toFinset = l.toFinset.image f := by
  ext b
  simp

/-- `planeAddLocation` inserts into the location set and changes nothing
else. -/
theorem planeAddLocation_spec (pl : Plane) (x : ℚ) :
    (planeAddLocation pl x).locations.toFinset = insert x pl.locations.toFinset
    ∧ (pl.locations.Nodup → (planeAddLocation pl x).locations.Nodup)
    ∧ (planeAddLocation pl x).tag = pl.tag
    ∧ (planeAddLocation pl x).fixed_coord = pl.fixed_coord
    ∧ (planeAddLocation pl x).lines = pl.lines
    ∧ (planeAddLocation pl x).pointIds = pl.pointIds
    ∧ (planeAddLocation pl x).locations ≠ [] := by
  unfold planeAddLocation
  by_cases h : x ∈ pl.locations
  · rw [if_pos h]
    refine ⟨?_, fun hn => hn, rfl, rfl, rfl, rfl, ?_⟩
    · rw [Finset.insert_eq_self.mpr (List.mem_toFinset.mpr h)]
    · intro hc
      rw [hc] at h
      simp at h
  · rw [if_neg h]
    refine ⟨?_, ?_, rfl, rfl, rfl, rfl, by simp⟩
    · rw [List.toFinset_append]
      ext y
      simp [or_comm]
    · intro hn
      simp [List.nodup_append, hn, h]

theorem planeAddPoint_ok (pl : Plane) (pid : Nat) (h : pid ∉ pl.pointIds) :
    planeAddPoint pl pid = .ok { pl with pointIds := pl.pointIds ++ [pid] } := by
  unfold planeAddPoint
  rw [if_neg h]

/-- The line-attachment fold succeeds on pairwise-distinct fresh locations
and appends exactly one named line per location. -/
theorem foldlM_planeAddLine_ok (fd τ : String) (c : ℚ) :
    ∀ (locs : List ℚ) (acc : Plane), locs.Nodup →
    (∀ loc ∈ locs, alookup acc.lines (τ, c, loc) = none) →
    locs.foldlM (fun a coord => planeAddLine a (mkLine τ c coord fd)) acc
      = .ok { acc with
          lines :=
            acc.lines ++ locs.map (fun loc => ((τ, c, loc), mkLine τ c loc fd)) } := by
  intro locs
  induction locs with
  | nil =>
    intro acc _ _
    rw [List.foldlM_nil, List.map_nil, List.append_nil]
    rfl
  | cons loc rest ih =>
    intro acc hnd hfresh
    simp only [List.nodup_cons] at hnd
    rw [List.foldlM_cons]
    have hname : lineName (mkLine τ c loc fd) = (τ, c, loc) := rfl
    have hstep : planeAddLine acc (mkLine τ c loc fd)
        = .ok { acc with
            lines := acc.lines ++ [((τ, c, loc), mkLine τ c loc fd)] } := by
      unfold planeAddLine
      rw [hname, hfresh loc (List.mem_cons_self loc rest)]
      rfl
    rw [hstep, except_ok_bind]
    rw [ih _ hnd.2 ?fresh]
    case fresh =>
      intro loc₂ hmem
      simp only [alookup_append, hfresh loc₂ (List.mem_cons_of_mem loc hmem),
        Option.none_orElse]
      have : loc₂ ≠ loc := fun hc => hnd.1 (hc ▸ hmem)
      simp [alookup, this.symm]
    simp [List.append_assoc]

/-- The deterministic result of `addLinesToPlane` on a plane as produced
by the per-tag folds (non-empty distinct locations, no lines yet). -/
def withLines (fd : String) (pl : Plane) : Plane :=
  { pl with
    lines :=
      (pl.locations.mergeSort fun a b => a ≤ b).map
        (fun loc =>
          ((pl.tag, pl.fixed_coord, loc), mkLine pl.tag pl.fixed_coord loc fd)) }

theorem addLinesToPlane_eq (fd : String) (pl : Plane)
    (hne : pl.locations ≠ []) (hnd : pl.locations.Nodup)
    (hlines : pl.lines = []) :
    addLinesToPlane fd pl = .ok (withLines fd pl) := by
  unfold addLinesToPlane planeLocations
  rw [if_neg (by simpa [List.isEmpty_iff] using hne)]
  simp only [except_ok_bind]
  rw [foldlM_planeAddLine_ok fd pl.tag pl.fixed_coord
    (pl.locations.mergeSort fun a b => a ≤ b) pl
    (((pl.locations.mergeSort_perm fun a b => a ≤ b).nodup_iff).mpr hnd)
    (by intro loc _; rw [hlines]; rfl)]
  unfold withLines
  rw [hlines]
  rfl

/-- The line phase of `points_to_planes` over a whole index. -/
theorem mapM_addLines_ok (fd : String) :
    ∀ (idx : List ((String × ℚ) × Plane)),
    (∀ e ∈ idx, e.2.locations ≠ [] ∧ e.2.locations.Nodup ∧ e.2.lines = []) →
    idx.mapM (fun e => do
        let pl ← addLinesToPlane fd e.2
        pure (e.1, pl))
      = .ok (idx.map fun e => (e.1, withLines fd e.2)) := by
  intro idx
  induction idx with
  | nil =>
    intro _
    rfl
  | cons e rest ih =>
    intro h
    obtain ⟨h₁, h₂, h₃⟩ := h e (List.mem_cons_self e rest)
    rw [List.mapM_cons]
    simp only [addLinesToPlane_eq fd e.2 h₁ h₂ h₃, except_ok_bind,
      ih (fun x hx => h x (List.mem_cons_of_mem e hx))]
    rfl

theorem getOrCreatePlane_eq_present (ps : PlaneSet) (τ : String) (c : ℚ)
    (pl₀ : Plane) (h : alookup ps.index (τ, c) = some pl₀) :
    getOrCreatePlane ps τ c = .ok (ps, pl₀) := by
  unfold getOrCreatePlane getPlane
  rw [h]

theorem getOrCreatePlane_eq_absent (ps : PlaneSet) (τ : String) (c : ℚ)
    (n : Coord) (h : alookup ps.index (τ, c) = none)
    (hn : normalOfTag τ = some n) (hsup : τ ∈ SUPPORTED_PLANE_TAGS) :
    getOrCreatePlane ps τ c
      = .ok (⟨ps.index ++ [((τ, c), ⟨τ, c, [], [], [], (0, 0, 0), n⟩)]⟩,
          ⟨τ, c, [], [], [], (0, 0, 0), n⟩) := by
  unfold getOrCreatePlane getPlane
  rw [h]
  have hmk : mkPlane τ c = .ok ⟨τ, c, [], [], [], (0, 0, 0), n⟩ := by
    unfold mkPlane
    rw [if_pos hsup, hn]
  rw [hmk, except_ok_bind]
  unfold psAdd
  simp only [planeKey]
  rw [h]
  simp only [Option.isSome_none, Bool.false_eq_true, if_false,
    except_ok_bind]

/-- One step of the per-tag fold when the target plane already exists. -/
theorem processPoint_eq_present (τ : String) (fc lc : Coord → ℚ)
    (htc : ∀ c, tagToCoordinates τ c = .ok (fc c, lc c))
    (ps : PlaneSet) (ip : Nat × PointData) (pl₀ : Plane)
    (hlook : alookup ps.index (τ, fc ip.2.coordinates) = some pl₀)
    (hpid : ip.1 ∉ pl₀.pointIds) :
    processPoint τ ps ip
      = .ok (psSet ps (τ, fc ip.2.coordinates)
          (planeAddLocation { pl₀ with pointIds := pl₀.pointIds ++ [ip.1] }
            (lc ip.2.coordinates))) := by
  unfold processPoint
  rw [htc ip.2.coordinates, except_ok_bind,
    getOrCreatePlane_eq_present ps τ (fc ip.2.coordinates) pl₀ hlook,
    except_ok_bind, planeAddPoint_ok pl₀ ip.1 hpid, except_ok_bind]

/-- One step of the per-tag fold when the target plane is created. -/
theorem processPoint_eq_absent (τ : String) (fc lc : Coord → ℚ)
    (htc : ∀ c, tagToCoordinates τ c = .ok (fc c, lc c))
    (ps : PlaneSet) (ip : Nat × PointData) (n : Coord)
    (hlook : alookup ps.index (τ, fc ip.2.coordinates) = none)
    (hn : normalOfTag τ = some n) (hsup : τ ∈ SUPPORTED_PLANE_TAGS) :
    processPoint τ ps ip
      = .ok (psSet
          ⟨ps.index ++ [((τ, fc ip.2.coordinates),
            ⟨τ, fc ip.2.coordinates, [], [], [], (0, 0, 0), n⟩)]⟩
          (τ, fc ip.2.coordinates)
          (planeAddLocation
            ⟨τ, fc ip.2.coordinates, [ip.1], [], [], (0, 0, 0), n⟩
            (lc ip.2.coordinates))) := by
  unfold processPoint
  rw [htc ip.2.coordinates, except_ok_bind,
    getOrCreatePlane_eq_absent ps τ (fc ip.2.coordinates) n hlook hn hsup,
    except_ok_bind,
    planeAddPoint_ok ⟨τ, fc ip.2.coordinates, [], [], [], (0, 0, 0), n⟩ ip.1
      (by simp), except_ok_bind]
  rfl

@[simp] theorem psSet_index (ps : PlaneSet) (k : String × ℚ) (pl : Plane) :
    (psSet ps k pl).index = aset ps.index k pl := rfl

/-- Master characterisation of one per-tag point loop of
`points_to_planes` (`core/data_set.py:364-371`): given fresh point ids,
the loop succeeds; it touches only keys of its own tag, its key set grows
by exactly the keys of the processed points, and the plane stored at
`(τ, c)` collects exactly the locations of the points whose fixed
coordinate is `c`, with no lines built yet. -/
theorem processPointsForTag_spec (τ : String) (fc lc : Coord → ℚ)
    (htc : ∀ c, tagToCoordinates τ c = .ok (fc c, lc c))
    (hsup : τ ∈ SUPPORTED_PLANE_TAGS) :
    ∀ (l : List (Nat × PointData)) (ps : PlaneSet),
    (l.map Prod.fst).Nodup →
    (∀ c pl, alookup ps.index (τ, c) = some pl →
      ∀ id ∈ pl.pointIds, id ∉ l.map Prod.fst) →
    (ps.index.map Prod.fst).Nodup →
    (∀ k pl, alookup ps.index k = some pl →
      pl.tag = k.1 ∧ pl.fixed_coord = k.2 ∧ pl.locations.Nodup) →
    ∃ ps₂, processPointsForTag τ ps l = .ok ps₂
      ∧ (ps₂.index.map Prod.fst).Nodup
      ∧ (∀ k pl, alookup ps₂.index k = some pl →
          pl.tag = k.1 ∧ pl.fixed_coord = k.2 ∧ pl.locations.Nodup)
      ∧ (ps₂.index.map Prod.fst).toFinset
          = (ps.index.map Prod.fst).toFinset
            ∪ (l.map fun ip => ((τ, fc ip.2.coordinates) : String × ℚ)).toFinset
      ∧ (∀ k : String × ℚ, k.1 ≠ τ → alookup ps₂.index k = alookup ps.index k)
      ∧ (∀ c pl₂, alookup ps₂.index (τ, c) = some pl₂ →
          (∀ pl₀, alookup ps.index (τ, c) = some pl₀ →
            pl₂.locations.toFinset
              = pl₀.locations.toFinset
                ∪ ((l.filter fun ip => fc ip.2.coordinates = c).map
                    fun ip => lc ip.2.coordinates).toFinset
            ∧ pl₂.lines = pl₀.lines)
          ∧ (alookup ps.index (τ, c) = none →
            pl₂.locations.toFinset
              = ((l.filter fun ip => fc ip.2.coordinates = c).map
                  fun ip => lc ip.2.coordinates).toFinset
            ∧ pl₂.lines = [])) := by
  intro l
  induction l with
  | nil =>
    intro ps _ _ hknd hcons
    refine ⟨ps, rfl, hknd, hcons, by simp, fun k _ => rfl, ?_⟩
    intro c pl₂ h
    constructor
    · intro pl₀ h₀
      rw [h] at h₀
      cases h₀
      simp
    · intro h₀
      rw [h] at h₀
      exact Option.noConfusion h₀
  | cons ip rest ih =>
    intro ps hidnd hfresh hknd hcons
    simp only [List.map_cons, List.nodup_cons] at hidnd
    cases hlook : alookup ps.index (τ, fc ip.2.coordinates) with
    | some pl₀ =>
      obtain ⟨hpt, hpf, hpnd⟩ := hcons _ _ hlook
      have hpid : ip.1 ∉ pl₀.pointIds := fun hmem =>
        hfresh _ _ hlook ip.1 hmem (by simp)
      have hstep := processPoint_eq_present τ fc lc htc ps ip pl₀ hlook hpid
      obtain ⟨hLocF, hLocNd, hTag, hFix, hLines, hPids, hLocNe⟩ :=
        planeAddLocation_spec { pl₀ with pointIds := pl₀.pointIds ++ [ip.1] }
          (lc ip.2.coordinates)
      have hsome : (alookup ps.index (τ, fc ip.2.coordinates)).isSome := by
        rw [hlook]; rfl
      have keysEq : (aset ps.index (τ, fc ip.2.coordinates)
            (planeAddLocation { pl₀ with pointIds := pl₀.pointIds ++ [ip.1] }
              (lc ip.2.coordinates))).map Prod.fst
          = ps.index.map Prod.fst :=
        aset_map_fst_of_present _ _ _ hsome
      have hfreshN : ∀ c pl, alookup (psSet ps (τ, fc ip.2.coordinates)
            (planeAddLocation { pl₀ with pointIds := pl₀.pointIds ++ [ip.1] }
              (lc ip.2.coordinates))).index (τ, c) = some pl →
          ∀ id ∈ pl.pointIds, id ∉ rest.map Prod.fst := by
        intro c pl h id hid
        simp only [psSet_index] at h
        by_cases hc : ((τ, fc ip.2.coordinates) : String × ℚ) = (τ, c)
        · rw [← hc, alookup_aset_self] at h
          cases h
          rw [hPids] at hid
          simp only [List.mem_append, List.mem_singleton] at hid
          rcases hid with hid | rfl
          · have := hfresh _ _ (hc ▸ hlook) id hid
            simp only [List.map_cons, List.mem_cons] at this
            exact fun hr => this (Or.inr hr)
          · exact hidnd.1
        · rw [alookup_aset_other _ _ _ _ hc] at h
          intro hr
          exact hfresh _ _ h id hid (by simp [hr])
      have hkndN : ((psSet ps (τ, fc ip.2.coordinates)
            (planeAddLocation { pl₀ with pointIds := pl₀.pointIds ++ [ip.1] }
              (lc ip.2.coordinates))).index.map Prod.fst).Nodup := by
        simp only [psSet_index]
        rw [keysEq]
        exact hknd
      have hconsN : ∀ k pl, alookup (psSet ps (τ, fc ip.2.coordinates)
            (planeAddLocation { pl₀ with pointIds := pl₀.pointIds ++ [ip.1] }
              (lc ip.2.coordinates))).index k = some pl →
          pl.tag = k.1 ∧ pl.fixed_coord = k.2 ∧ pl.locations.Nodup := by
        intro k pl h
        simp only [psSet_index] at h
        by_cases hc : ((τ, fc ip.2.coordinates) : String × ℚ) = k
        · rw [← hc, alookup_aset_self] at h
          cases h
          refine ⟨?_, ?_, hLocNd hpnd⟩
          · rw [hTag]
            rw [← hc]
            exact hpt
          · rw [hFix]
            rw [← hc]
            exact hpf
        · rw [alookup_aset_other _ _ _ _ hc] at h
          exact hcons _ _ h
      obtain ⟨ps₂, hps₂, hnd₂, hcons₂, hkeys₂, hother₂, hchar₂⟩ :=
        ih (psSet ps (τ, fc ip.2.coordinates)
            (planeAddLocation { pl₀ with pointIds := pl₀.pointIds ++ [ip.1] }
              (lc ip.2.coordinates)))
          hidnd.2 hfreshN hkndN hconsN
      refine ⟨ps₂, ?_, hnd₂, hcons₂, ?_, ?_, ?_⟩
      · simp only [processPointsForTag]
        rw [hstep, except_ok_bind]
        exact hps₂
      · rw [hkeys₂]
        simp only [psSet_index]
        rw [keysEq, List.map_cons, List.toFinset_cons, Finset.union_insert]
        have hKmem : ((τ, fc ip.2.coordinates) : String × ℚ)
            ∈ (ps.index.map Prod.fst).toFinset := by
          rw [List.mem_toFinset]
          exact List.mem_map_of_mem Prod.fst (alookup_mem hlook)
        rw [Finset.insert_eq_self.mpr (Finset.mem_union_left _ hKmem)]
      · intro k hk
        rw [hother₂ k hk]
        simp only [psSet_index]
        exact alookup_aset_other _ _ _ _
          (fun hc => hk (by rw [← hc]))
      · intro c pl₂ h
        obtain ⟨hsome, hnone⟩ := hchar₂ c pl₂ h
        by_cases hc : c = fc ip.2.coordinates
        · subst hc
          obtain ⟨hlocs, hlns⟩ := hsome
            (planeAddLocation { pl₀ with pointIds := pl₀.pointIds ++ [ip.1] }
              (lc ip.2.coordinates))
            (by simp only [psSet_index]; exact alookup_aset_self _ _ _)
          constructor
          · intro pl₀' h₀'
            rw [hlook] at h₀'
            cases h₀'
            constructor
            · rw [hlocs, hLocF]
              rw [List.filter_cons, if_pos (by simp), List.map_cons,
                List.toFinset_cons, Finset.insert_union, Finset.union_insert]
            · rw [hlns, hLines]
          · intro h₀
            rw [hlook] at h₀
            exact Option.noConfusion h₀
        · rw [show alookup (psSet ps (τ, fc ip.2.coordinates)
                (planeAddLocation { pl₀ with pointIds := pl₀.pointIds ++ [ip.1] }
                  (lc ip.2.coordinates))).index (τ, c)
              = alookup ps.index (τ, c)
            from by
              simp only [psSet_index]
              exact alookup_aset_other _ _ _ _
                (fun hcc => hc (by injection hcc with h₁ h₂; exact h₂.symm))]
            at hsome hnone
          rw [List.filter_cons, if_neg (by simp; exact fun hcc => hc hcc.symm)]
          exact ⟨hsome, hnone⟩
    | none =>
      obtain ⟨n, hn⟩ := Option.isSome_iff_exists.mp
        (normalOfTag_isSome_of_supported τ hsup)
      have hstep := processPoint_eq_absent τ fc lc htc ps ip n hlook hn hsup
      obtain ⟨hLocF, hLocNd, hTag, hFix, hLines, hPids, hLocNe⟩ :=
        planeAddLocation_spec ⟨τ, fc ip.2.coordinates, [ip.1], [], [], (0, 0, 0), n⟩
          (lc ip.2.coordinates)
      have hKnotin : ((τ, fc ip.2.coordinates) : String × ℚ)
          ∉ ps.index.map Prod.fst :=
        (alookup_eq_none_iff _ _).mp hlook
      have keysEqA : ((ps.index
            ++ [((τ, fc ip.2.coordinates),
              (⟨τ, fc ip.2.coordinates, [], [], [], (0, 0, 0), n⟩ : Plane))]).map
            Prod.fst)
          = ps.index.map Prod.fst ++ [(τ, fc ip.2.coordinates)] := by
        simp
      have hsomeA : (alookup (ps.index
            ++ [((τ, fc ip.2.coordinates),
              (⟨τ, fc ip.2.coordinates, [], [], [], (0, 0, 0), n⟩ : Plane))])
            ((τ, fc ip.2.coordinates) : String × ℚ)).isSome := by
        rw [alookup_append, hlook]
        simp [alookup, Option.orElse]
      have keysEq : (aset (ps.index
            ++ [((τ, fc ip.2.coordinates),
              (⟨τ, fc ip.2.coordinates, [], [], [], (0, 0, 0), n⟩ : Plane))])
            (τ, fc ip.2.coordinates)
            (planeAddLocation ⟨τ, fc ip.2.coordinates, [ip.1], [], [], (0, 0, 0), n⟩
              (lc ip.2.coordinates))).map Prod.fst
          = ps.index.map Prod.fst ++ [(τ, fc ip.2.coordinates)] := by
        rw [aset_map_fst_of_present _ _ _ hsomeA, keysEqA]
      have hlookA : ∀ k : String × ℚ, ((τ, fc ip.2.coordinates) : String × ℚ) ≠ k →
          alookup (ps.index
            ++ [((τ, fc ip.2.coordinates),
              (⟨τ, fc ip.2.coordinates, [], [], [], (0, 0, 0), n⟩ : Plane))]) k
            = alookup ps.index k := by
        intro k hc
        rw [alookup_append]
        have h₂ : alookup [((τ, fc ip.2.coordinates),
            (⟨τ, fc ip.2.coordinates, [], [], [], (0, 0, 0), n⟩ : Plane))] k
            = none := by
          simp only [alookup]
          rw [if_neg hc]
        rw [h₂]
        cases alookup ps.index k <;> simp [Option.orElse]
      have hfreshN : ∀ c pl, alookup (psSet (⟨ps.index
            ++ [((τ, fc ip.2.coordinates),
              ⟨τ, fc ip.2.coordinates, [], [], [], (0, 0, 0), n⟩)]⟩ : PlaneSet)
            (τ, fc ip.2.coordinates)
            (planeAddLocation ⟨τ, fc ip.2.coordinates, [ip.1], [], [], (0, 0, 0), n⟩
              (lc ip.2.coordinates))).index (τ, c) = some pl →
          ∀ id ∈ pl.pointIds, id ∉ rest.map Prod.fst := by
        intro c pl h id hid
        simp only [psSet_index] at h
        by_cases hc : ((τ, fc ip.2.coordinates) : String × ℚ) = (τ, c)
        · rw [← hc, alookup_aset_self] at h
          cases h
          rw [hPids] at hid
          simp only [List.mem_singleton] at hid
          subst hid
          exact hidnd.1
        · rw [alookup_aset_other _ _ _ _ hc, hlookA _ hc] at h
          intro hr
          exact hfresh _ _ h id hid (by simp [hr])
      have hkndN : ((psSet (⟨ps.index
            ++ [((τ, fc ip.2.coordinates),
              ⟨τ, fc ip.2.coordinates, [], [], [], (0, 0, 0), n⟩)]⟩ : PlaneSet)
            (τ, fc ip.2.coordinates)
            (planeAddLocation ⟨τ, fc ip.2.coordinates, [ip.1], [], [], (0, 0, 0), n⟩
              (lc ip.2.coordinates))).index.map Prod.fst).Nodup := by
        simp only [psSet_index]
        rw [keysEq]
        simp only [List.nodup_append, List.nodup_cons, List.nodup_nil]
        refine ⟨hknd, ⟨by simp, trivial⟩, ?_⟩
        intro a ha hb
        simp only [List.mem_cons, List.not_mem_nil, or_false] at hb
        subst hb
        exact hKnotin ha
      have hconsN : ∀ k pl, alookup (psSet (⟨ps.index
            ++ [((τ, fc ip.2.coordinates),
              ⟨τ, fc ip.2.coordinates, [], [], [], (0, 0, 0), n⟩)]⟩ : PlaneSet)
            (τ, fc ip.2.coordinates)
            (planeAddLocation ⟨τ, fc ip.2.coordinates, [ip.1], [], [], (0, 0, 0), n⟩
              (lc ip.2.coordinates))).index k = some pl →
          pl.tag = k.1 ∧ pl.fixed_coord = k.2 ∧ pl.locations.Nodup := by
        intro k pl h
        simp only [psSet_index] at h
        by_cases hc : ((τ, fc ip.2.coordinates) : String × ℚ) = k
        · rw [← hc, alookup_aset_self] at h
          cases h
          refine ⟨?_, ?_, hLocNd (by simp)⟩
          · rw [hTag, ← hc]
          · rw [hFix, ← hc]
        · rw [alookup_aset_other _ _ _ _ hc, hlookA _ hc] at h
          exact hcons _ _ h
      obtain ⟨ps₂, hps₂, hnd₂, hcons₂, hkeys₂, hother₂, hchar₂⟩ :=
        ih (psSet ⟨ps.index
            ++ [((τ, fc ip.2.coordinates),
              ⟨τ, fc ip.2.coordinates, [], [], [], (0, 0, 0), n⟩)]⟩
            (τ, fc ip.2.coordinates)
            (planeAddLocation ⟨τ, fc ip.2.coordinates, [ip.1], [], [], (0, 0, 0), n⟩
              (lc ip.2.coordinates)))
          hidnd.2 hfreshN hkndN hconsN
      refine ⟨ps₂, ?_, hnd₂, hcons₂, ?_, ?_, ?_⟩
      · simp only [processPointsForTag]
        rw [hstep, except_ok_bind]
        exact hps₂
      · rw [hkeys₂]
        simp only [psSet_index]
        rw [keysEq, List.map_cons, List.toFinset_cons, Finset.union_insert,
          List.toFinset_append]
        simp only [List.toFinset_cons, List.toFinset_nil]
        ext y
        simp only [Finset.mem_union, Finset.mem_insert, Finset.mem_union]
        tauto
      · intro k hk
        rw [hother₂ k hk]
        simp only [psSet_index]
        rw [alookup_aset_other _ _ _ _ (fun hc => hk (by rw [← hc]))]
        exact hlookA k (fun hc => hk (by rw [← hc]))
      · intro c pl₂ h
        obtain ⟨hsome, hnone⟩ := hchar₂ c pl₂ h
        by_cases hc : c = fc ip.2.coordinates
        · subst hc
          obtain ⟨hlocs, hlns⟩ := hsome
            (planeAddLocation ⟨τ, fc ip.2.coordinates, [ip.1], [], [], (0, 0, 0), n⟩
              (lc ip.2.coordinates))
            (by simp only [psSet_index]; exact alookup_aset_self _ _ _)
          constructor
          · intro pl₀' h₀'
            rw [hlook] at h₀'
            exact Option.noConfusion h₀'
          · intro h₀
            constructor
            · rw [hlocs, hLocF]
              rw [List.filter_cons, if_pos (by simp), List.map_cons,
                List.toFinset_cons, Finset.insert_union]
              simp
            · rw [hlns, hLines]
        · have hKc : ((τ, fc ip.2.coordinates) : String × ℚ) ≠ (τ, c) :=
            fun hcc => hc (by injection hcc with h₁ h₂; exact h₂.symm)
          rw [show alookup (psSet (⟨ps.index
                  ++ [((τ, fc ip.2.coordinates),
                    ⟨τ, fc ip.2.coordinates, [], [], [], (0, 0, 0), n⟩)]⟩ : PlaneSet)
                (τ, fc ip.2.coordinates)
                (planeAddLocation ⟨τ, fc ip.2.coordinates, [ip.1], [], [], (0, 0, 0), n⟩
                  (lc ip.2.coordinates))).index ((τ, c) : String × ℚ)
              = alookup ps.index ((τ, c) : String × ℚ)
            from by
              simp only [psSet_index]
              rw [alookup_aset_other _ _ _ _ hKc]
              exact hlookA _ hKc]
            at hsome hnone
          rw [List.filter_cons, if_neg (by simp; exact fun hcc => hc hcc.symm)]
          exact ⟨hsome, hnone⟩

theorem enumFrom_map_snd {α β : Type} (g : α → β) :
    ∀ (l : List α) (n : Nat),
    (List.enumFrom n l).map (fun ip => g ip.2) = l.map g := by
  intro l
  induction l with
  | nil => intro n; rfl
  | cons a rest ih =>
    intro n
    simp only [List.enumFrom, List.map_cons]
    rw [ih (n + 1)]

theorem enumFrom_filter_map_snd {α β : Type} (q : α → Bool) (g : α → β) :
    ∀ (l : List α) (n : Nat),
    ((List.enumFrom n l).filter (fun ip => q ip.2)).map (fun ip => g ip.2)
      = (l.filter q).map g := by
  intro l
  induction l with
  | nil => intro n; rfl
  | cons a rest ih =>
    intro n
    simp only [List.enumFrom, List.filter_cons]
    by_cases h : q a
    · rw [if_pos h, if_pos h, List.map_cons, ih (n + 1), List.map_cons]
    · rw [if_neg h, if_neg h, ih (n + 1)]

theorem mergeSort_toFinset (l : List ℚ) :
    (l.mergeSort fun a b => a ≤ b).toFinset = l.toFinset := by
  ext y
  simp only [List.mem_toFinset]
  exact (l.mergeSort_perm fun a b => a ≤ b).mem_iff

theorem card_toFinset_map_pair (s : String) (l : List ℚ) :
    ((l.map fun q => ((s, q) : String × ℚ)).toFinset).card = l.toFinset.card := by
  rw [list_toFinset_map]
  exact Finset.card_image_of_injective _ (fun a b h => by injection h)

/-- C5: `points_to_planes('X')` on a dataset with pairwise-distinct
coordinates succeeds and returns a `PlaneSet` with exactly one `XY` plane
per distinct z-value and one `XZ` plane per distinct y-value of the
points (tag `XY` reads `(z, x)`, tag `XZ` reads `(y, x)`), and every `XY`
plane at fixed `z = c` carries exactly one line (keyed by the tag, the
plane position and the line position) per distinct x-value among the
points with that z (`core/data_set.py:290-389`). -/
theorem points_to_planes_X_structure (ds : DataSet)
    (_hnodup : (ds.points.map PointData.coordinates).Nodup) :
    ∃ ps₃, pointsToPlanes ds "X" = .ok ps₃
      ∧ (ps₃.index.filter fun e => e.1.1 = "XY").length
          = ((ds.points.map fun p => p.coordinates.2.2).toFinset).card
      ∧ (ps₃.index.filter fun e => e.1.1 = "XZ").length
          = ((ds.points.map fun p => p.coordinates.2.1).toFinset).card
      ∧ ∀ c pl, alookup ps₃.index ("XY", c) = some pl →
          pl.lines.length
            = (((ds.points.filter fun p => p.coordinates.2.2 = c).map
                fun p => p.coordinates.1).toFinset).card
          ∧ (pl.lines.map Prod.fst).toFinset
            = ((ds.points.filter fun p => p.coordinates.2.2 = c).map
                fun p => (("XY" : String), c, p.coordinates.1)).toFinset := by
  have hidnodup : (ds.points.enum.map Prod.fst).Nodup := by
    rw [show ds.points.enum = List.enumFrom 0 ds.points from rfl,
      List.enumFrom_map_fst]
    exact List.nodup_range' 0 ds.points.length
  have hconv : ∀ c : ℚ,
      ((ds.points.enum.filter fun ip => decide (ip.2.coordinates.2.2 = c)).map
        fun ip => ip.2.coordinates.1)
      = ((ds.points.filter fun p => decide (p.coordinates.2.2 = c)).map
        fun p => p.coordinates.1) :=
    fun c => enumFrom_filter_map_snd (fun p => decide (p.coordinates.2.2 = c))
      (fun p => p.coordinates.1) ds.points 0
  obtain ⟨ps₁, hps₁, hnd₁, hcons₁, hkeys₁, hother₁, hchar₁⟩ :=
    processPointsForTag_spec "XY" (fun c => c.2.2) (fun c => c.1)
      (fun c => rfl) (by decide) ds.points.enum ⟨[]⟩
      hidnodup
      (fun c pl h => by simp [alookup] at h)
      (by simp)
      (fun k pl h => by simp [alookup] at h)
  have hkeys₁' : (ps₁.index.map Prod.fst).toFinset
      = (ds.points.map fun p => (("XY" : String), p.coordinates.2.2)).toFinset := by
    rw [hkeys₁]
    rw [show (ds.points.enum.map fun ip => (("XY" : String), ip.2.coordinates.2.2))
        = ds.points.map fun p => (("XY" : String), p.coordinates.2.2) from
      enumFrom_map_snd (fun p => (("XY" : String), p.coordinates.2.2)) ds.points 0]
    simp
  have hXZnone : ∀ c : ℚ, alookup ps₁.index (("XZ" : String), c) = none := by
    intro c
    rw [alookup_eq_none_iff]
    intro hmem
    have hmem₂ : (("XZ" : String), c) ∈ (ps₁.index.map Prod.fst).toFinset :=
      List.mem_toFinset.mpr hmem
    rw [hkeys₁', List.mem_toFinset] at hmem₂
    obtain ⟨p, -, hp⟩ := List.mem_map.mp hmem₂
    have hcon := congrArg Prod.fst hp
    simp at hcon
  obtain ⟨ps₂, hps₂, hnd₂, hcons₂, hkeys₂, hother₂, hchar₂⟩ :=
    processPointsForTag_spec "XZ" (fun c => c.2.1) (fun c => c.1)
      (fun c => rfl) (by decide) ds.points.enum ps₁
      hidnodup
      (fun c pl h => by rw [hXZnone c] at h; exact Option.noConfusion h)
      hnd₁ hcons₁
  have hkeys₂' : (ps₂.index.map Prod.fst).toFinset
      = (ds.points.map fun p => (("XY" : String), p.coordinates.2.2)).toFinset
        ∪ (ds.points.map fun p => (("XZ" : String), p.coordinates.2.1)).toFinset := by
    rw [hkeys₂, hkeys₁']
    rw [show (ds.points.enum.map fun ip => (("XZ" : String), ip.2.coordinates.2.1))
        = ds.points.map fun p => (("XZ" : String), p.coordinates.2.1) from
      enumFrom_map_snd (fun p => (("XZ" : String), p.coordinates.2.1)) ds.points 0]
  have hXYlook : ∀ c : ℚ, alookup ps₂.index (("XY" : String), c)
      = alookup ps₁.index (("XY" : String), c) :=
    fun c => hother₂ (("XY" : String), c) (by simp)
  have hentry : ∀ e ∈ ps₂.index, e.2.locations ≠ [] ∧ e.2.locations.Nodup
      ∧ e.2.lines = [] := by
    intro e he
    have hlk : alookup ps₂.index e.1 = some e.2 :=
      alookup_of_mem_of_nodup hnd₂ he
    refine ⟨?_, (hcons₂ e.1 e.2 hlk).2.2, ?_⟩
    case _ =>
      -- non-empty locations
      have hkmem : e.1 ∈ (ps₂.index.map Prod.fst).toFinset :=
        List.mem_toFinset.mpr (List.mem_map_of_mem Prod.fst he)
      rw [hkeys₂', Finset.mem_union, List.mem_toFinset, List.mem_toFinset]
        at hkmem
      rcases hkmem with hmem | hmem
      · obtain ⟨p, hpmem, hpk⟩ := List.mem_map.mp hmem
        rw [← hpk] at hlk
        rw [hXYlook p.coordinates.2.2] at hlk
        obtain ⟨hlocF, -⟩ := (hchar₁ p.coordinates.2.2 e.2 hlk).2 rfl
        rw [hconv p.coordinates.2.2] at hlocF
        intro hnil
        rw [hnil] at hlocF
        have hx : p.coordinates.1
            ∈ ((ds.points.filter fun p₂ => decide (p₂.coordinates.2.2
                  = p.coordinates.2.2)).map fun p₂ => p₂.coordinates.1).toFinset := by
          rw [List.mem_toFinset]
          exact List.mem_map_of_mem _
            (List.mem_filter.mpr ⟨hpmem, decide_eq_true rfl⟩)
        rw [← hlocF] at hx
        simp at hx
      · obtain ⟨p, hpmem, hpk⟩ := List.mem_map.mp hmem
        rw [← hpk] at hlk
        obtain ⟨hlocF, -⟩ := (hchar₂ p.coordinates.2.1 e.2 hlk).2
          (hXZnone p.coordinates.2.1)
        rw [show ((ds.points.enum.filter fun ip => decide (ip.2.coordinates.2.1
              = p.coordinates.2.1)).map fun ip => ip.2.coordinates.1)
            = ((ds.points.filter fun p₂ => decide (p₂.coordinates.2.1
              = p.coordinates.2.1)).map fun p₂ => p₂.coordinates.1) from
          enumFrom_filter_map_snd
            (fun p₂ => decide (p₂.coordinates.2.1 = p.coordinates.2.1))
            (fun p₂ => p₂.coordinates.1) ds.points 0] at hlocF
        intro hnil
        rw [hnil] at hlocF
        have hx : p.coordinates.1
            ∈ ((ds.points.filter fun p₂ => decide (p₂.coordinates.2.1
                  = p.coordinates.2.1)).map fun p₂ => p₂.coordinates.1).toFinset := by
          rw [List.mem_toFinset]
          exact List.mem_map_of_mem _
            (List.mem_filter.mpr ⟨hpmem, decide_eq_true rfl⟩)
        rw [← hlocF] at hx
        simp at hx
    case _ =>
      -- lines are empty
      have hkmem : e.1 ∈ (ps₂.index.map Prod.fst).toFinset :=
        List.mem_toFinset.mpr (List.mem_map_of_mem Prod.fst he)
      rw [hkeys₂', Finset.mem_union, List.mem_toFinset, List.mem_toFinset]
        at hkmem
      rcases hkmem with hmem | hmem
      · obtain ⟨p, hpmem, hpk⟩ := List.mem_map.mp hmem
        rw [← hpk] at hlk
        rw [hXYlook p.coordinates.2.2] at hlk
        exact ((hchar₁ p.coordinates.2.2 e.2 hlk).2 rfl).2
      · obtain ⟨p, hpmem, hpk⟩ := List.mem_map.mp hmem
        rw [← hpk] at hlk
        exact ((hchar₂ p.coordinates.2.1 e.2 hlk).2
          (hXZnone p.coordinates.2.1)).2
  have hmapM := mapM_addLines_ok "X" ps₂.index hentry
  refine ⟨⟨ps₂.index.map fun e => (e.1, withLines "X" e.2)⟩, ?_, ?_, ?_, ?_⟩
  · unfold pointsToPlanes
    rw [show directionToTags "X" = .ok ["XY", "XZ"] from rfl, except_ok_bind]
    rw [show (["XY", "XZ"].foldlM
          (fun ps tag => processPointsForTag tag ps ds.points.enum)
          (⟨[]⟩ : PlaneSet)) = .ok ps₂ from by
      rw [List.foldlM_cons, hps₁, except_ok_bind, List.foldlM_cons, hps₂,
        except_ok_bind, List.foldlM_nil]
      rfl]
    rw [except_ok_bind, hmapM, except_ok_bind]
  · have h1 : (((ps₂.index.map fun e => (e.1, withLines "X" e.2)).filter
          fun e => e.1.1 = "XY")).length
        = ((ps₂.index.filter fun e => e.1.1 = "XY")).length :=
      filter_key_map_value ps₂.index (withLines "X")
        (fun k => decide (k.1 = "XY"))
    have h2 : ((ps₂.index.filter fun e => e.1.1 = "XY")).length
        = (((ps₂.index.map Prod.fst).toFinset.filter
            fun k => decide (k.1 = "XY")).card) :=
      length_filter_key_eq_card ps₂.index (fun k => decide (k.1 = "XY")) hnd₂
    rw [h1, h2, hkeys₂', Finset.filter_union]
    rw [Finset.filter_true_of_mem (fun k hk => by
      rw [List.mem_toFinset] at hk
      obtain ⟨p, -, hp⟩ := List.mem_map.mp hk
      rw [← hp]
      exact decide_eq_true rfl)]
    rw [Finset.filter_false_of_mem (fun k hk => by
      rw [List.mem_toFinset] at hk
      obtain ⟨p, -, hp⟩ := List.mem_map.mp hk
      rw [← hp]
      simp), Finset.union_empty]
    rw [show (ds.points.map fun p => (("XY" : String), p.coordinates.2.2))
        = (ds.points.map fun p => p.coordinates.2.2).map
            fun q => (("XY" : String), q) from by rw [List.map_map]; rfl]
    exact card_toFinset_map_pair _ _
  · have h1 : (((ps₂.index.map fun e => (e.1, withLines "X" e.2)).filter
          fun e => e.1.1 = "XZ")).length
        = ((ps₂.index.filter fun e => e.1.1 = "XZ")).length :=
      filter_key_map_value ps₂.index (withLines "X")
        (fun k => decide (k.1 = "XZ"))
    have h2 : ((ps₂.index.filter fun e => e.1.1 = "XZ")).length
        = (((ps₂.index.map Prod.fst).toFinset.filter
            fun k => decide (k.1 = "XZ")).card) :=
      length_filter_key_eq_card ps₂.index (fun k => decide (k.1 = "XZ")) hnd₂
    rw [h1, h2, hkeys₂', Finset.filter_union]
    rw [Finset.filter_false_of_mem (fun k hk => by
      rw [List.mem_toFinset] at hk
      obtain ⟨p, -, hp⟩ := List.mem_map.mp hk
      rw [← hp]
      simp)]
    rw [Finset.filter_true_of_mem (fun k hk => by
      rw [List.mem_toFinset] at hk
      obtain ⟨p, -, hp⟩ := List.mem_map.mp hk
      rw [← hp]
      exact decide_eq_true rfl), Finset.empty_union]
    rw [show (ds.points.map fun p => (("XZ" : String), p.coordinates.2.1))
        = (ds.points.map fun p => p.coordinates.2.1).map
            fun q => (("XZ" : String), q) from by rw [List.map_map]; rfl]
    exact card_toFinset_map_pair _ _
  · intro c pl hlk
    rw [show (⟨ps₂.index.map fun e => (e.1, withLines "X" e.2)⟩ : PlaneSet).index
        = ps₂.index.map fun e => (e.1, withLines "X" e.2) from rfl,
      alookup_map_value] at hlk
    cases h₂ : alookup ps₂.index (("XY" : String), c) with
    | none => rw [h₂] at hlk; simp at hlk
    | some pl₂c =>
      rw [h₂] at hlk
      simp only [Option.map_some'] at hlk
      have hpl : pl = withLines "X" pl₂c := (Option.some.inj hlk).symm
      subst hpl
      obtain ⟨htagc, hfixc, hndc⟩ := hcons₂ _ _ h₂
      rw [hXYlook c] at h₂
      obtain ⟨hlocF, -⟩ := (hchar₁ c pl₂c h₂).2 rfl
      rw [hconv c] at hlocF
      constructor
      · show (withLines "X" pl₂c).lines.length = _
        unfold withLines
        rw [List.length_map, List.length_mergeSort,
          ← List.toFinset_card_of_nodup hndc, hlocF]
      · show ((withLines "X" pl₂c).lines.map Prod.fst).toFinset = _
        unfold withLines
        simp only [show pl₂c.tag = "XY" from htagc,
          show pl₂c.fixed_coord = c from hfixc]
        rw [List.map_map, list_toFinset_map, mergeSort_toFinset, hlocF,
          ← list_toFinset_map, List.map_map]
        rfl

/-- Dataset of the C5 witness: three points with distinct coordinates at
z = 0, 1, 2 and distinct x values, all at y = 0. -/
def c5DataSet : DataSet :=
  mkDataSet "experiment"
    (some [⟨(0, 0, 0), []⟩, ⟨(1, 0, 1), []⟩, ⟨(2, 0, 2), []⟩]) none none

/-- Witness for C5 at the concrete three-point dataset. -/
theorem points_to_planes_X_structure_witness :
    ∃ ps₃, pointsToPlanes c5DataSet "X" = .ok ps₃
      ∧ (ps₃.index.filter fun e => e.1.1 = "XY").length
          = ((c5DataSet.points.map fun p => p.coordinates.2.2).toFinset).card
      ∧ (ps₃.index.filter fun e => e.1.1 = "XZ").length
          = ((c5DataSet.points.map fun p => p.coordinates.2.1).toFinset).card
      ∧ ∀ c pl, alookup ps₃.index ("XY", c) = some pl →
          pl.lines.length
            = (((c5DataSet.points.filter fun p => p.coordinates.2.2 = c).map
                fun p => p.coordinates.1).toFinset).card
          ∧ (pl.lines.map Prod.fst).toFinset
            = ((c5DataSet.points.filter fun p => p.coordinates.2.2 = c).map
                fun p => (("XY" : String), c, p.coordinates.1)).toFinset :=
  points_to_planes_X_structure c5DataSet (by decide)

/-! ### C8, C9: compute_metrics error behaviour -/

/-- Under two non-empty datasets with neither source equal to
`"experiment"` (case-insensitively), every path through the
pre-computation phase raises. -/
theorem computePrechecks_error_of_no_experiment_source (dsExp dsSim : DataSet)
    (tv : Option (List ℚ)) (fv : Option (List String))
    (hse : pyLower dsExp.source ≠ "experiment")
    (hss : pyLower dsSim.source ≠ "experiment") :
    ∃ e, computePrechecks dsExp dsSim tv fv = .error e := by
  unfold computePrechecks
  by_cases he : dsExp.points.length = 0
  · rw [if_pos he]; exact ⟨_, rfl⟩
  · rw [if_neg he]
    by_cases hs : dsSim.points.length = 0
    · rw [if_pos hs]; exact ⟨_, rfl⟩
    · rw [if_neg hs]
      cases hr : dsSim.points[0]? with
      | none => exact ⟨_, rfl⟩
      | some refPoint =>
        dsimp only
        cases hf : extractFields fv refPoint with
        | error e => exact ⟨_, rfl⟩
        | ok flds =>
          cases ht : extractTimes tv refPoint with
          | error e => exact ⟨_, rfl⟩
          | ok times =>
            dsimp only
            rw [if_pos ⟨hse, hss⟩]
            exact ⟨_, rfl⟩

/-- C8: on two non-empty datasets in which neither source label equals
`"experiment"` case-insensitively, `compute_metrics` raises during the
pre-computation phase — before any metric is computed — and the
simulation dataset is returned untouched
(`quantitative/computations.py:89-128`). -/
theorem compute_metrics_raises_without_experiment_source
    (table : MetricTable) (dsExp dsSim : DataSet) (tv : Option (List ℚ))
    (fv : Option (List String))
    (_hexp : dsExp.points ≠ []) (_hsim : dsSim.points ≠ [])
    (hse : pyLower dsExp.source ≠ "experiment")
    (hss : pyLower dsSim.source ≠ "experiment") :
    (∃ e, (computeMetrics table dsExp dsSim tv fv).2 = .error e)
    ∧ (computeMetrics table dsExp dsSim tv fv).1 = dsSim := by
  obtain ⟨e, hpre⟩ :=
    computePrechecks_error_of_no_experiment_source dsExp dsSim tv fv hse hss
  unfold computeMetrics
  rw [hpre]
  exact ⟨⟨e, rfl⟩, rfl⟩

/-- A non-`"experiment"` dataset used in the C8 witness. -/
def noExpDataSetA : DataSet :=
  mkDataSet "labdata" (some [⟨(0, 0, 0), [("U", [(0, 1)])]⟩]) none none

/-- A second non-`"experiment"` dataset used in the C8 witness. -/
def noExpDataSetB : DataSet :=
  mkDataSet "RANS" (some [⟨(0, 0, 0), [("U", [(0, 2)])]⟩]) none none

/-- Witness for C8 on two concrete non-`"experiment"` datasets. -/
theorem compute_metrics_raises_without_experiment_source_witness :
    (∃ e, (computeMetrics [] noExpDataSetA noExpDataSetB none none).2
      = .error e)
    ∧ (computeMetrics [] noExpDataSetA noExpDataSetB none none).1
      = noExpDataSetB :=
  compute_metrics_raises_without_experiment_source [] noExpDataSetA
    noExpDataSetB none none (by decide) (by decide) (by decide) (by decide)

/-- C9: once the pre-computation phase succeeds, `compute_metrics` raises
the top-level error exactly when the main loop produced no
metric/field/time result at all; whenever at least one combination
succeeded, the partial nested results of the loop — in which failing
combinations were merely skipped — are returned
(`quantitative/computations.py:146-202`). -/
theorem compute_metrics_error_iff_no_results (table : MetricTable)
    (dsExp dsSim : DataSet) (tv : Option (List ℚ)) (fv : Option (List String))
    (fs : List String) (ts : List ℚ) (cs : List Coord)
    (hpre : computePrechecks dsExp dsSim tv fv = .ok (fs, ts, cs)) :
    ((∃ e, (computeMetrics table dsExp dsSim tv fv).2 = .error e)
      ↔ (metricLoop table dsSim fs ts (buildCache dsExp cs fs)).2 = [])
    ∧ ((metricLoop table dsSim fs ts (buildCache dsExp cs fs)).2 ≠ [] →
      (computeMetrics table dsExp dsSim tv fv).2
        = .ok (metricLoop table dsSim fs ts (buildCache dsExp cs fs)).2) := by
  unfold computeMetrics
  rw [hpre]
  dsimp only
  by_cases hres : (metricLoop table dsSim fs ts (buildCache dsExp cs fs)).2 = []
  · rw [hres]
    refine ⟨⟨fun _ => rfl, fun _ => ⟨_, rfl⟩⟩, fun hne => absurd rfl hne⟩
  · have hbool : ((metricLoop table dsSim fs ts (buildCache dsExp cs fs)).2).isEmpty
        = false := by
      cases hl : (metricLoop table dsSim fs ts (buildCache dsExp cs fs)).2 with
      | nil => exact absurd hl hres
      | cons hd tl => rfl
    rw [hbool]
    refine ⟨⟨?_, fun h => absurd h hres⟩, fun _ => ?_⟩
    · rintro ⟨e, he⟩
      simp at he
    · simp

/-- Experiment dataset for the C9 witness. -/
def c9ExpDataSet : DataSet :=
  mkDataSet "experiment" (some [⟨(0, 0, 0), [("U", [(0, 1)])]⟩]) none none

/-- Simulation dataset for the C9 witness. -/
def c9SimDataSet : DataSet :=
  mkDataSet "sim" (some [⟨(0, 0, 0), [("U", [(0, 2)])]⟩]) none none

/-- A one-entry metric table for the C9 witness. -/
def c9Table : MetricTable := [("NMSE", fun _ _ => .ok 1)]

/-- Witness for C9: concrete datasets whose prechecks succeed; the loop
produces a non-empty result, which `compute_metrics` returns. -/
theorem compute_metrics_error_iff_no_results_witness :
    (computeMetrics c9Table c9ExpDataSet c9SimDataSet none none).2
      = .ok (metricLoop c9Table c9SimDataSet ["U"] [0]
          (buildCache c9ExpDataSet [(0, 0, 0)] ["U"])).2 :=
  (compute_metrics_error_iff_no_results c9Table c9ExpDataSet c9SimDataSet
    none none ["U"] [0] [(0, 0, 0)] (by rfl)).2 (by decide)

end P4V
